import Mathlib

/-!
Verification of the particle/SDF simulation core of the `3d-waves` repository.

The JavaScript source works with IEEE doubles; following the specification,
which states all numeric properties only up to floating-point tolerance, the
embedding idealises every number as an exact rational (`ℚ`).

`Math.sqrt` appears in the source only (a) as the final step of each distance
computation and (b) inside normalisations and speed computations of the
particle physics.  For (a) we embed the *squared* distances: `Math.sqrt` is
strictly monotone on `[0, ∞)`, so every comparison, minimum and bound in the
source commutes with it and the squared values determine the distances
exactly, while staying inside exact rational arithmetic.  For (b) the square
root (and `Math.sin`/`Math.cos`/`Math.random`/`Math.PI`) are passed to the
embedded functions as oracle parameters, so each theorem quantifies over
every possible behaviour of those primitives.
-/

namespace Waves

/-- A 3-dimensional point/vector with rational coordinates. -/
@[ext]
structure Vec3 where
  x : ℚ
  y : ℚ
  z : ℚ
deriving DecidableEq, Repr

instance : Zero Vec3 := ⟨⟨0, 0, 0⟩⟩

instance : Add Vec3 := ⟨fun u v => ⟨u.x + v.x, u.y + v.y, u.z + v.z⟩⟩

instance : Sub Vec3 := ⟨fun u v => ⟨u.x - v.x, u.y - v.y, u.z - v.z⟩⟩

instance : SMul ℚ Vec3 := ⟨fun a v => ⟨a * v.x, a * v.y, a * v.z⟩⟩

/-- Dot product, as written out componentwise throughout the source
(`abx*apx + aby*apy + abz*apz` and the like). -/
def dot (u v : Vec3) : ℚ := u.x * v.x + u.y * v.y + u.z * v.z

/-- Squared length `dx*dx + dy*dy + dz*dz` (the source returns
`Math.sqrt` of this). -/
def normSq (v : Vec3) : ℚ := dot v v

/-- Squared distance between two points. -/
def distSq (p q : Vec3) : ℚ := normSq (p - q)

/-- Cross product, used only to state non-degeneracy of a triangle. -/
def cross (u v : Vec3) : Vec3 :=
  ⟨u.y * v.z - u.z * v.y, u.z * v.x - u.x * v.z, u.x * v.y - u.y * v.x⟩

/-- A triangle, as extracted by `extractTriangles`: the JS object stores the
nine corner coordinates `ax,ay,az,bx,by,bz,cx,cy,cz`; we package each corner
as a `Vec3` (`t.a.x` is the source's `tri.ax`, and so on). -/
structure Tri where
  a : Vec3
  b : Vec3
  c : Vec3
deriving DecidableEq, Repr

/-- Non-degeneracy of a triangle: its two edge vectors are linearly
independent.  The spec (§4.1) declares zero-area triangles out of scope. -/
def Nondegenerate (t : Tri) : Prop := cross (t.b - t.a) (t.c - t.a) ≠ 0

/-- The point of a triangle with barycentric parameters `(v, w)`, exactly the
parameterisation `a + v*ab + w*ac` used by the source. -/
def baryPoint (t : Tri) (v w : ℚ) : Vec3 :=
  t.a + v • (t.b - t.a) + w • (t.c - t.a)

/-- Membership in the (closed) triangle. -/
def inTriangle (t : Tri) (q : Vec3) : Prop :=
  ∃ v w : ℚ, 0 ≤ v ∧ 0 ≤ w ∧ v + w ≤ 1 ∧ q = baryPoint t v w

/-- Squared-distance embedding of `pointToTriangleDist` from
`src/gpu-particles.js` (lines 130-204); the identical function also appears in
`src/sdf-worker.js` (7-73) and `src/sdf-worker-slice.js` (111-177).  Each
branch of the source returns `Math.sqrt` of the value returned here. -/
def pointToTriangleDistSq (p : Vec3) (t : Tri) : ℚ :=
  let ab := t.b - t.a
  let ac := t.c - t.a
  let ap := p - t.a
  let d1 := dot ab ap
  let d2 := dot ac ap
  if d1 ≤ 0 ∧ d2 ≤ 0 then
    -- closest to vertex A
    normSq ap
  else
    let bp := p - t.b
    let d3 := dot ab bp
    let d4 := dot ac bp
    if d3 ≥ 0 ∧ d4 ≤ d3 then
      -- closest to vertex B
      normSq bp
    else
      let vc := d1 * d4 - d3 * d2
      if vc ≤ 0 ∧ d1 ≥ 0 ∧ d3 ≤ 0 then
        -- closest to edge AB
        let v := d1 / (d1 - d3)
        distSq p (t.a + v • ab)
      else
        let cp := p - t.c
        let d5 := dot ab cp
        let d6 := dot ac cp
        if d6 ≥ 0 ∧ d5 ≤ d6 then
          -- closest to vertex C
          normSq cp
        else
          let vb := d5 * d2 - d1 * d6
          if vb ≤ 0 ∧ d2 ≥ 0 ∧ d6 ≤ 0 then
            -- closest to edge AC
            let w := d2 / (d2 - d6)
            distSq p (t.a + w • ac)
          else
            let va := d3 * d6 - d5 * d4
            if va ≤ 0 ∧ d4 - d3 ≥ 0 ∧ d5 - d6 ≥ 0 then
              -- closest to edge BC
              let w := (d4 - d3) / ((d4 - d3) + (d5 - d6))
              distSq p (t.b + w • (t.c - t.b))
            else
              -- inside the triangle: project to its plane
              let denom := 1 / (va + vb + vc)
              let v := vb * denom
              let w := vc * denom
              distSq p (t.a + v • ab + w • ac)

/-- The quadratic `gQ A11 A12 A22 b1 b2 v w` is the squared distance from `P`
to the barycentric point `(v, w)` minus the constant `|AP|²`, written in
terms of the Gram data `A11 = ab*ab`, `A12 = ab*ac`, `A22 = ac*ac`,
`b1 = ab*ap`, `b2 = ac*ap`.  All optimality reasoning about
`pointToTriangleDistSq` happens on this scalar form. -/
def gQ (A11 A12 A22 b1 b2 v w : ℚ) : ℚ :=
  A11 * v ^ 2 + 2 * A12 * v * w + A22 * w ^ 2 - 2 * b1 * v - 2 * b2 * w

/-- Scalar form of the seven branches of `pointToTriangleDistSq`, written over
the Gram data `A11, A12, A22, b1, b2` and the constant `c0 = |AP|²`.  The
branch conditions and division expressions mirror the source exactly (after
substituting `d3 = b1 - A11`, `d4 = b2 - A12`, `d5 = b1 - A12`,
`d6 = b2 - A22`). -/
def distSqBranches (A11 A12 A22 b1 b2 c0 : ℚ) : ℚ :=
  if b1 ≤ 0 ∧ b2 ≤ 0 then c0
  else if b1 - A11 ≥ 0 ∧ b2 - A12 ≤ b1 - A11 then
    c0 + gQ A11 A12 A22 b1 b2 1 0
  else if b1 * (b2 - A12) - (b1 - A11) * b2 ≤ 0 ∧ b1 ≥ 0 ∧ b1 - A11 ≤ 0 then
    c0 + gQ A11 A12 A22 b1 b2 (b1 / (b1 - (b1 - A11))) 0
  else if b2 - A22 ≥ 0 ∧ b1 - A12 ≤ b2 - A22 then
    c0 + gQ A11 A12 A22 b1 b2 0 1
  else if (b1 - A12) * b2 - b1 * (b2 - A22) ≤ 0 ∧ b2 ≥ 0 ∧ b2 - A22 ≤ 0 then
    c0 + gQ A11 A12 A22 b1 b2 0 (b2 / (b2 - (b2 - A22)))
  else if (b1 - A11) * (b2 - A22) - (b1 - A12) * (b2 - A12) ≤ 0 ∧
      b2 - A12 - (b1 - A11) ≥ 0 ∧ b1 - A12 - (b2 - A22) ≥ 0 then
    c0 + gQ A11 A12 A22 b1 b2
      (1 - (b2 - A12 - (b1 - A11)) / (b2 - A12 - (b1 - A11) + (b1 - A12 - (b2 - A22))))
      ((b2 - A12 - (b1 - A11)) / (b2 - A12 - (b1 - A11) + (b1 - A12 - (b2 - A22))))
  else
    c0 + gQ A11 A12 A22 b1 b2
      (((b1 - A12) * b2 - b1 * (b2 - A22)) *
        (1 / ((b1 - A11) * (b2 - A22) - (b1 - A12) * (b2 - A12) +
          ((b1 - A12) * b2 - b1 * (b2 - A22)) + (b1 * (b2 - A12) - (b1 - A11) * b2))))
      ((b1 * (b2 - A12) - (b1 - A11) * b2) *
        (1 / ((b1 - A11) * (b2 - A22) - (b1 - A12) * (b2 - A12) +
          ((b1 - A12) * b2 - b1 * (b2 - A22)) + (b1 * (b2 - A12) - (b1 - A11) * b2))))


-- ### BVH (sdf-worker-slice.js)

/-- Axis-aligned bounding box, the `minX..maxZ` fields of `BVHNode`. -/
structure Aabb where
  minX : ℚ
  minY : ℚ
  minZ : ℚ
  maxX : ℚ
  maxY : ℚ
  maxZ : ℚ
deriving DecidableEq, Repr

/-- One iteration of the bounds loop in `buildBVH`:
`node.minX = Math.min(node.minX, tri.ax, tri.bx, tri.cx)` and so on. -/
def expandBounds (n : Aabb) (t : Tri) : Aabb :=
  ⟨min n.minX (min t.a.x (min t.b.x t.c.x)),
   min n.minY (min t.a.y (min t.b.y t.c.y)),
   min n.minZ (min t.a.z (min t.b.z t.c.z)),
   max n.maxX (max t.a.x (max t.b.x t.c.x)),
   max n.maxY (max t.a.y (max t.b.y t.c.y)),
   max n.maxZ (max t.a.z (max t.b.z t.c.z))⟩

/-- Bounds after the loop's first iteration: folding the source's
`±Infinity` starting bounds with one triangle.  `buildBVH` is only ever
applied to nonempty triangle lists, so the infinite start never survives. -/
def triBounds (t : Tri) : Aabb :=
  ⟨min t.a.x (min t.b.x t.c.x), min t.a.y (min t.b.y t.c.y), min t.a.z (min t.b.z t.c.z),
   max t.a.x (max t.b.x t.c.x), max t.a.y (max t.b.y t.c.y), max t.a.z (max t.b.z t.c.z)⟩

def nodeBounds (t : Tri) (ts : List Tri) : Aabb := ts.foldl expandBounds (triBounds t)

/-- A `BVHNode`: either a leaf holding `node.triangles`, or an internal node
with `node.left` and `node.right` (the source sets exactly one of the two
alternatives). -/
inductive BVH where
  | leaf (bounds : Aabb) (triangles : List Tri)
  | node (bounds : Aabb) (left right : BVH)
deriving Repr

def BVH.bounds : BVH → Aabb
  | .leaf b _ => b
  | .node b _ _ => b

def centroidX (t : Tri) : ℚ := (t.a.x + t.b.x + t.c.x) / 3
def centroidY (t : Tri) : ℚ := (t.a.y + t.b.y + t.c.y) / 3
def centroidZ (t : Tri) : ℚ := (t.a.z + t.b.z + t.c.z) / 3

/-- The `getCoord` selection in `buildBVH`: the centroid coordinate along the
longest axis of the node bounds. -/
def getCoordOf (bounds : Aabb) : Tri → ℚ :=
  if bounds.maxX - bounds.minX ≥ bounds.maxY - bounds.minY ∧
      bounds.maxX - bounds.minX ≥ bounds.maxZ - bounds.minZ then centroidX
  else if bounds.maxY - bounds.minY ≥ bounds.maxZ - bounds.minZ then centroidY
  else centroidZ

/-- The `triangles.sort((a, b) => getCoord(a) - getCoord(b))` step. -/
def sortedTris (triangles : List Tri) (bounds : Aabb) : List Tri :=
  triangles.mergeSort fun u u' => decide (getCoordOf bounds u ≤ getCoordOf bounds u')

/-- `buildBVH(triangles, depth, maxDepth, minTris)` from
`src/sdf-worker-slice.js` lines 19-63.  Median split on the longest axis of
the node's bounds after sorting by centroid.  An empty input builds an empty
leaf (the source would keep `±Infinity` bounds there; `buildBVH` is only
ever called on the full, nonempty mesh). -/
def buildBVH (triangles : List Tri) (depth : ℕ := 0) (maxDepth : ℕ := 12)
    (minTris : ℕ := 4) : BVH :=
  match triangles with
  | [] => .leaf ⟨0, 0, 0, 0, 0, 0⟩ []
  | t :: ts =>
    let bounds := nodeBounds t ts
    if (t :: ts).length ≤ minTris ∨ depth ≥ maxDepth then
      .leaf bounds (t :: ts)
    else
      let sorted := sortedTris (t :: ts) bounds
      let mid := sorted.length / 2
      if 0 < (sorted.take mid).length ∧ 0 < (sorted.drop mid).length then
        .node bounds (buildBVH (sorted.take mid) (depth + 1) maxDepth minTris)
          (buildBVH (sorted.drop mid) (depth + 1) maxDepth minTris)
      else
        .leaf bounds (t :: ts)
termination_by maxDepth - depth
decreasing_by
  all_goals
    simp only [not_or, not_le] at *
    omega

/-- Squared form of `pointToAABBDist` (the source returns its square root). -/
def pointToAABBDistSq (px py pz : ℚ) (n : Aabb) : ℚ :=
  let dx := if px < n.minX then n.minX - px else if px > n.maxX then px - n.maxX else 0
  let dy := if py < n.minY then n.minY - py else if py > n.maxY then py - n.maxY else 0
  let dz := if pz < n.minZ then n.minZ - pz else if pz > n.maxZ then pz - n.maxZ else 0
  dx * dx + dy * dy + dz * dz

/-- Squared form of `queryBVH` over extended rationals: `Infinity` is `⊤`.
Both children of an internal node always exist (see `buildBVH`), so the
source's null checks disappear. -/
def queryBVH (node : BVH) (px py pz : ℚ) (bestDist : WithTop ℚ) : WithTop ℚ :=
  let aabbDist := pointToAABBDistSq px py pz node.bounds
  if (aabbDist : WithTop ℚ) ≥ bestDist then bestDist
  else
    match node with
    | .leaf _ tris =>
      tris.foldl (fun best t =>
        let d := pointToTriangleDistSq ⟨px, py, pz⟩ t
        if (d : WithTop ℚ) < best then (d : WithTop ℚ) else best) bestDist
    | .node _ left right =>
      let leftDist := pointToAABBDistSq px py pz left.bounds
      let rightDist := pointToAABBDistSq px py pz right.bounds
      if leftDist < rightDist then
        queryBVH right px py pz (queryBVH left px py pz bestDist)
      else
        queryBVH left px py pz (queryBVH right px py pz bestDist)

/-- Brute-force minimum of the squared point-to-triangle distances, the
`for` loop over all triangles starting from `minDist = Infinity`. -/
def bruteMinDistSq (triangles : List Tri) (p : Vec3) : WithTop ℚ :=
  triangles.foldl (fun m t => min m ((pointToTriangleDistSq p t : ℚ) : WithTop ℚ)) ⊤

def pointInBounds (n : Aabb) (q : Vec3) : Prop :=
  (n.minX ≤ q.x ∧ q.x ≤ n.maxX) ∧ (n.minY ≤ q.y ∧ q.y ≤ n.maxY) ∧
  (n.minZ ≤ q.z ∧ q.z ≤ n.maxZ)

/-- All three corners of `t` lie inside the box. -/
def triInBounds (n : Aabb) (t : Tri) : Prop :=
  pointInBounds n t.a ∧ pointInBounds n t.b ∧ pointInBounds n t.c

def BVH.tris : BVH → List Tri
  | .leaf _ ts => ts
  | .node _ l r => l.tris ++ r.tris

/-- Well-formedness: every triangle of a subtree lies inside that subtree's
bounds. -/
def BVH.WF : BVH → Prop
  | .leaf b ts => ∀ t ∈ ts, triInBounds b t
  | .node b l r => l.WF ∧ r.WF ∧ ∀ t ∈ l.tris ++ r.tris, triInBounds b t


-- ## SDF field generation (sequential and sliced-parallel)

structure Bbox where
  min : Vec3
  max : Vec3
deriving DecidableEq, Repr

/-- Result of the sequential `generateSDF` in `src/sdf-worker.js` (75-119):
`{ data, size, stepX, stepY, stepZ }`.  `data` holds squared distances (the
source stores the `Math.sqrt` of each entry); `Infinity` is `⊤`. -/
structure SDFResult where
  data : List (WithTop ℚ)
  size : Vec3
  stepX : ℚ
  stepY : ℚ
  stepZ : ℚ
deriving Repr

/-- Sequential SDF generator, `generateSDF` from `src/sdf-worker.js` 75-119:
brute-force minimum distance over all triangles at every voxel center,
written in z-outer / y-middle / x-inner loop order so that list position
`x + y*R + z*R²` is exactly the flat index the source writes. -/
def generateSDF (triangles : List Tri) (bbox : Bbox) (resolution : ℕ) : SDFResult :=
  let sizeX := bbox.max.x - bbox.min.x
  let sizeY := bbox.max.y - bbox.min.y
  let sizeZ := bbox.max.z - bbox.min.z
  let stepX := sizeX / (resolution : ℚ)
  let stepY := sizeY / (resolution : ℚ)
  let stepZ := sizeZ / (resolution : ℚ)
  let data := (List.range resolution).flatMap fun z =>
    (List.range resolution).flatMap fun y =>
      (List.range resolution).map fun x : ℕ =>
        bruteMinDistSq triangles
          ⟨bbox.min.x + ((x : ℚ) + 0.5) * stepX,
           bbox.min.y + ((y : ℚ) + 0.5) * stepY,
           bbox.min.z + ((z : ℚ) + 0.5) * stepZ⟩
  ⟨data, ⟨sizeX, sizeY, sizeZ⟩, stepX, stepY, stepZ⟩

/-- The Z-slab a single worker fills in `src/sdf-worker-slice.js`
(`self.onmessage`, 182-218): a BVH query at every voxel center of the slice
range `[zStart, zEnd)`, written at slab position
`(z - zStart)*R² + y*R + x`. -/
def workerSliceData (triangles : List Tri) (bbox : Bbox) (resolution zStart zEnd : ℕ)
    (stepX stepY stepZ : ℚ) : List (WithTop ℚ) :=
  (List.range' zStart (zEnd - zStart)).flatMap fun z =>
    (List.range resolution).flatMap fun y =>
      (List.range resolution).map fun x : ℕ =>
        queryBVH (buildBVH triangles 0 12 4)
          (bbox.min.x + ((x : ℚ) + 0.5) * stepX)
          (bbox.min.y + ((y : ℚ) + 0.5) * stepY)
          (bbox.min.z + ((z : ℚ) + 0.5) * stepZ) ⊤

/-- `Math.ceil(resolution / numWorkers)`. -/
def slicesPerWorker (resolution numWorkers : ℕ) : ℕ :=
  (resolution + numWorkers - 1) / numWorkers

/-- Multi-worker SDF generation, `generateSDFParallel` from
`src/sdf-worker-slice.js` 227-340: worker `i` fills Z-slices
`[i*S, min(i*S+S, R))`; the slabs are merged into the final array in Z
order (the merge loop copies slab slice `z - zStart` to offset `z*R²`).
Workers past the end of the range (`zStart ≥ R`, the source's `break`)
contribute empty slabs. -/
def generateSDFParallel (triangles : List Tri) (bbox : Bbox) (resolution numWorkers : ℕ) :
    SDFResult :=
  let sizeX := bbox.max.x - bbox.min.x
  let sizeY := bbox.max.y - bbox.min.y
  let sizeZ := bbox.max.z - bbox.min.z
  let stepX := sizeX / (resolution : ℚ)
  let stepY := sizeY / (resolution : ℚ)
  let stepZ := sizeZ / (resolution : ℚ)
  let S := slicesPerWorker resolution numWorkers
  let finalData := (List.range numWorkers).flatMap fun i =>
    workerSliceData triangles bbox resolution (i * S) (min (i * S + S) resolution)
      stepX stepY stepZ
  ⟨finalData, ⟨sizeX, sizeY, sizeZ⟩, stepX, stepY, stepZ⟩

-- ## Particle system embedding (`gpu-particles.js`, `physics-worker.js`)

/-- The particle states `FALLING=0, STUCK=1, SLIDING=2, DRIPPING=3,
INACTIVE=4, BOUNCING=5` shared by `gpu-particles.js` and
`physics-worker.js`. -/
inductive PState where
  | FALLING
  | STUCK
  | SLIDING
  | DRIPPING
  | INACTIVE
  | BOUNCING
deriving DecidableEq, Repr

/-- One slot of the structure-of-arrays particle store: the entries of
`posX[i] .. slideSpeed[i]` at a fixed index `i`. -/
structure Particle where
  posX : ℚ
  posY : ℚ
  posZ : ℚ
  velX : ℚ
  velY : ℚ
  velZ : ℚ
  state : PState
  size : ℚ
  stickTime : ℚ
  slideSpeed : ℚ
deriving DecidableEq, Repr

/-- The SDF object consumed by `sampleSDF`: `{data, bbox, resolution,
stepX, stepY, stepZ}`.  The flat array is modelled as a total function
`ℤ → ℚ` so that "the sampler never reads an index outside `[0, R³-1]`"
is a statable property (see the C10 theorem). -/
structure SdfData where
  data : ℤ → ℚ
  bbox : Bbox
  resolution : ℕ
  stepX : ℚ
  stepY : ℚ
  stepZ : ℚ

/-- Oracle for the transcendental / random primitives of the source
(`Math.random`, `Math.sqrt`, `Math.sin`, `Math.cos`, `Math.PI`).  Each
call site of `Math.random()` in a single update step draws a distinct
index, so one `Oracle` value fixes the whole draw sequence of a step;
theorems quantify over every oracle. -/
structure Oracle where
  rand : ℕ → ℚ
  sqrt : ℚ → ℚ
  sin : ℚ → ℚ
  cos : ℚ → ℚ
  pi : ℚ

-- Constants from `src/config.js` (exact rational values of the literals).
def DRIP_GRAVITY : ℚ := -12
def DRIP_REMOVE_Y : ℚ := -20
def BOUNCE_CHANCE : ℚ := 2/5
def DRIP_MIN_SIZE : ℚ := 1/100
def DRIP_SHRINK_RATE : ℚ := 1/40
def BOUNCE_DRAG : ℚ := 93/100
def DRIP_INITIAL_VELOCITY : ℚ := -4/5
def STICK_DURATION_MIN : ℚ := 5/2
def STICK_DURATION_MAX : ℚ := 6
def STICK_JITTER_SPEED : ℚ := 8
def STICK_JITTER_AMOUNT : ℚ := 3/10000
def SLIDE_SPEED_MIN : ℚ := 1/4
def SLIDE_SPEED_MAX : ℚ := 4/5
def SLIDE_DURATION_MIN : ℚ := 4
def SLIDE_DURATION_MAX : ℚ := 12
def BOUNCE_RESTITUTION_MIN : ℚ := 3/20
def BOUNCE_RESTITUTION_MAX : ℚ := 1/2
def BOUNCE_SCATTER : ℚ := 5
def SPLASH_UPWARD_BIAS : ℚ := 3
def BOUNCE_SIZE_REDUCTION : ℚ := 9/20

/-- `config.IMPACT_SPRAY_FACTOR || 0.12` in the physics worker: the config
object sent by `WorkerParticleSystem.init` omits `IMPACT_SPRAY_FACTOR`, so
the fallback `0.12` applies. -/
def WORKER_SPRAY_FACTOR : ℚ := 3/25

/-- `config.MIST_SIZE_FACTOR || 0.3` in the physics worker (same fallback
situation). -/
def WORKER_MIST_FACTOR : ℚ := 3/10

/-- `config.BOUNCE_SCATTER_VERTICAL || 6` in the physics worker (same
fallback situation). -/
def WORKER_SCATTER_VERTICAL : ℚ := 6

/-- Trilinear SDF sampling, `ParticleSystem.sampleSDF` of `gpu-particles.js`
(238-287); `sampleSDF` of `physics-worker.js` (26-60) is the same function
with the corner reads written inline.  A missing field (`!this.sdf`,
`!sdfData`) yields the sentinel `100`, as does a base voxel outside the
padded interior `[0, resolution-2]³`. -/
def sampleSDF (sdf : Option SdfData) (x y z : ℚ) : ℚ :=
  match sdf with
  | none => 100
  | some s =>
    let fx := (x - s.bbox.min.x) / s.stepX - 1/2
    let fy := (y - s.bbox.min.y) / s.stepY - 1/2
    let fz := (z - s.bbox.min.z) / s.stepZ - 1/2
    let x0 : ℤ := ⌊fx⌋
    let y0 : ℤ := ⌊fy⌋
    let z0 : ℤ := ⌊fz⌋
    if x0 < 0 ∨ (s.resolution : ℤ) - 1 ≤ x0 ∨
       y0 < 0 ∨ (s.resolution : ℤ) - 1 ≤ y0 ∨
       z0 < 0 ∨ (s.resolution : ℤ) - 1 ≤ z0 then 100
    else
      let tx := fx - (x0 : ℚ)
      let ty := fy - (y0 : ℚ)
      let tz := fz - (z0 : ℚ)
      let r : ℤ := s.resolution
      let r2 := r * r
      let i000 := x0 + y0 * r + z0 * r2
      let c00 := s.data i000 * (1 - tx) + s.data (i000 + 1) * tx
      let c10 := s.data (i000 + r) * (1 - tx) + s.data (i000 + r + 1) * tx
      let c01 := s.data (i000 + r2) * (1 - tx) + s.data (i000 + r2 + 1) * tx
      let c11 := s.data (i000 + r2 + r) * (1 - tx) + s.data (i000 + r2 + r + 1) * tx
      let c0 := c00 * (1 - ty) + c10 * ty
      let c1 := c01 * (1 - ty) + c11 * ty
      c0 * (1 - tz) + c1 * tz

/-- Central-difference SDF gradient (`sdfGradient`, both files); the JS
`Math.sqrt(...) || 1` falls back to `1` when the length is `0`. -/
def sdfGradient (o : Oracle) (sdf : Option SdfData) (x y z : ℚ) : Vec3 :=
  let eps : ℚ := 1/10
  let dx := sampleSDF sdf (x + eps) y z - sampleSDF sdf (x - eps) y z
  let dy := sampleSDF sdf x (y + eps) z - sampleSDF sdf x (y - eps) z
  let dz := sampleSDF sdf x y (z + eps) - sampleSDF sdf x y (z - eps)
  let len0 := o.sqrt (dx * dx + dy * dy + dz * dz)
  let len := if len0 = 0 then 1 else len0
  ⟨dx / len, dy / len, dz / len⟩

/-- One iteration of the `ParticleSystem.update` loop of `gpu-particles.js`
(331-502) for the particle at one index: an `INACTIVE` slot is skipped
(`continue`), every other state runs its branch.  `Math.random()` draws take
oracle indices 0..5 in call order. -/
def updateParticle (o : Oracle) (sdf : Option SdfData) (dt time : ℚ)
    (p : Particle) : Particle :=
  match p.state with
  | .INACTIVE => p
  | .FALLING =>
    let velY1 := p.velY + DRIP_GRAVITY * dt
    let posX1 := p.posX + p.velX * dt
    let posY1 := p.posY + velY1 * dt
    let posZ1 := p.posZ + p.velZ * dt
    let dist := sampleSDF sdf posX1 posY1 posZ1
    let q : Particle :=
      if dist < 7/20 then
        let normal := sdfGradient o sdf posX1 posY1 posZ1
        let push := 3/20 - dist
        let posX2 := posX1 + normal.x * push
        let posY2 := posY1 + normal.y * push
        let posZ2 := posZ1 + normal.z * push
        if o.rand 0 < BOUNCE_CHANCE then
          let dotVN := p.velX * normal.x + velY1 * normal.y + p.velZ * normal.z
          let restitution := BOUNCE_RESTITUTION_MIN +
            o.rand 1 * (BOUNCE_RESTITUTION_MAX - BOUNCE_RESTITUTION_MIN)
          { p with
            posX := posX2
            posY := posY2
            posZ := posZ2
            velX := (p.velX - 2 * dotVN * normal.x) * restitution +
            (o.rand 2 - 1/2) * BOUNCE_SCATTER * 2
            velY := (velY1 - 2 * dotVN * normal.y) * restitution +
            (o.rand 3 - 1/2) * BOUNCE_SCATTER + SPLASH_UPWARD_BIAS
            velZ := (p.velZ - 2 * dotVN * normal.z) * restitution +
            (o.rand 4 - 1/2) * BOUNCE_SCATTER
            state := .BOUNCING
            size := p.size * (BOUNCE_SIZE_REDUCTION + o.rand 5 * (3/10)) }
        else
          { p with
            posX := posX2
            posY := posY2
            posZ := posZ2
            velX := 0
            velY := 0
            velZ := 0
            state := .STUCK
            stickTime := 0 }
      else
        { p with posX := posX1, posY := posY1, posZ := posZ1, velY := velY1 }
    if q.posY < DRIP_REMOVE_Y ∨ q.posZ < -10 then
      { q with state := .INACTIVE, size := 0 }
    else q
  | .BOUNCING =>
    let velY1 := p.velY + DRIP_GRAVITY * dt
    let velX1 := p.velX * BOUNCE_DRAG
    let velZ1 := p.velZ * BOUNCE_DRAG
    let posX1 := p.posX + velX1 * dt
    let posY1 := p.posY + velY1 * dt
    let posZ1 := p.posZ + velZ1 * dt
    let size1 := p.size * (1 - dt * DRIP_SHRINK_RATE)
    if posY1 < DRIP_REMOVE_Y ∨ size1 < DRIP_MIN_SIZE then
      { p with
        posX := posX1
        posY := posY1
        posZ := posZ1
        velX := velX1
        velY := velY1
        velZ := velZ1
        state := .INACTIVE
        size := 0 }
    else
      { p with
        posX := posX1
        posY := posY1
        posZ := posZ1
        velX := velX1
        velY := velY1
        velZ := velZ1
        size := size1 }
  | .STUCK =>
    let stickTime1 := p.stickTime + dt
    let posX1 := p.posX +
      o.sin (time * STICK_JITTER_SPEED + p.posY * 3) * STICK_JITTER_AMOUNT
    let stickDuration := STICK_DURATION_MIN +
      p.slideSpeed * (STICK_DURATION_MAX - STICK_DURATION_MIN)
    if stickDuration < stickTime1 then
      { p with
        posX := posX1
        stickTime := stickTime1
        state := .DRIPPING
        velY := DRIP_INITIAL_VELOCITY }
    else
      { p with posX := posX1, stickTime := stickTime1 }
  | .SLIDING =>
    let normal := sdfGradient o sdf p.posX p.posY p.posZ
    let d := DRIP_GRAVITY * normal.y
    let speed := SLIDE_SPEED_MIN + p.slideSpeed * (SLIDE_SPEED_MAX - SLIDE_SPEED_MIN)
    let velX1 := (-normal.x * d) * speed
    let velY1 := (DRIP_GRAVITY - normal.y * d) * speed
    let velZ1 := (-normal.z * d) * speed
    let posX1 := p.posX + velX1 * dt
    let posY1 := p.posY + velY1 * dt
    let posZ1 := p.posZ + velZ1 * dt
    let dist := sampleSDF sdf posX1 posY1 posZ1
    -- `this.sdf.bbox.min.y`: the source reads the field with no null check
    -- (it would throw on a missing SDF); the embedding supplies 0 then.
    let sdfMinY := match sdf with | some s => s.bbox.min.y | none => 0
    let q : Particle :=
      if 2/5 < dist ∨ posY1 < sdfMinY + 3/10 then
        { p with
          posX := posX1
          posY := posY1
          posZ := posZ1
          state := .DRIPPING
          velX := velX1 * (3/10)
          velY := DRIP_INITIAL_VELOCITY
          velZ := velZ1 * (3/10) }
      else if dist < 2/25 then
        { p with
          posX := posX1 + normal.x * (3/25 - dist)
          posY := posY1 + normal.y * (3/25 - dist)
          posZ := posZ1 + normal.z * (3/25 - dist)
          velX := velX1
          velY := velY1
          velZ := velZ1 }
      else
        { p with
          posX := posX1
          posY := posY1
          posZ := posZ1
          velX := velX1
          velY := velY1
          velZ := velZ1 }
    let stickTime1 := q.stickTime + dt
    let maxSlide := SLIDE_DURATION_MIN +
      p.slideSpeed * (SLIDE_DURATION_MAX - SLIDE_DURATION_MIN)
    if maxSlide < stickTime1 then
      { q with
        stickTime := stickTime1
        state := .DRIPPING
        velY := DRIP_INITIAL_VELOCITY }
    else
      { q with stickTime := stickTime1 }
  | .DRIPPING =>
    let velY1 := p.velY + DRIP_GRAVITY * dt
    let velX1 := p.velX * (99/100)
    let velZ1 := p.velZ * (99/100)
    let posX1 := p.posX + velX1 * dt
    let posY1 := p.posY + velY1 * dt
    let posZ1 := p.posZ + velZ1 * dt
    let size1 := p.size * (1 - dt * DRIP_SHRINK_RATE)
    if posY1 < DRIP_REMOVE_Y ∨ size1 < DRIP_MIN_SIZE then
      { p with
        posX := posX1
        posY := posY1
        posZ := posZ1
        velX := velX1
        velY := velY1
        velZ := velZ1
        state := .INACTIVE
        size := 0 }
    else
      { p with
        posX := posX1
        posY := posY1
        posZ := posZ1
        velX := velX1
        velY := velY1
        velZ := velZ1
        size := size1 }

/-- One iteration of the `processParticles` loop of `physics-worker.js`
(76-224) for the particle at one index.  The worker has no `SLIDING` branch
(such a particle only counts as active) and gates `FALLING` impacts on
hitting a front-facing surface near the front of the text.  `Math.random()`
draws take oracle indices 0..9 in call order. -/
def processParticle (o : Oracle) (sdf : Option SdfData) (dt time : ℚ)
    (p : Particle) : Particle :=
  match p.state with
  | .INACTIVE => p
  | .SLIDING => p
  | .FALLING =>
    let velY1 := p.velY + DRIP_GRAVITY * dt
    let posX1 := p.posX + p.velX * dt
    let posY1 := p.posY + velY1 * dt
    let posZ1 := p.posZ + p.velZ * dt
    let dist := sampleSDF sdf posX1 posY1 posZ1
    let q : Particle :=
      if dist < 1/5 then
        let normal := sdfGradient o sdf posX1 posY1 posZ1
        -- `sdfBbox.maxZ`: read with no null check in the source; 0 for `none`.
        let maxZ := match sdf with | some s => s.bbox.max.z | none => 0
        if 1/2 < normal.z ∧ maxZ - 3/2 < posZ1 then
          let push := 1/10 - dist
          let posX2 := posX1 + normal.x * push
          let posY2 := posY1 + normal.y * push
          let posZ2 := posZ1 + normal.z * push
          if o.rand 0 < BOUNCE_CHANCE then
            let impactSpeed := o.sqrt (p.velX * p.velX + velY1 * velY1 + p.velZ * p.velZ)
            let dotVN := p.velX * normal.x + velY1 * normal.y + p.velZ * normal.z
            let angleInfluence := |dotVN| / (impactSpeed + 1/100)
            let baseRestitution := BOUNCE_RESTITUTION_MIN +
              o.rand 1 * (BOUNCE_RESTITUTION_MAX - BOUNCE_RESTITUTION_MIN)
            let restitution := baseRestitution * (7/10 + (3/10) * (1 - angleInfluence))
            let reflX := (p.velX - 2 * dotVN * normal.x) * restitution
            let reflY := (velY1 - 2 * dotVN * normal.y) * restitution
            let reflZ := (p.velZ - 2 * dotVN * normal.z) * restitution
            let sprayAngle := o.rand 2 * o.pi * 2
            let sprayStrength := impactSpeed * WORKER_SPRAY_FACTOR
            let tangent : Vec3 := if 9/10 < |normal.x| then ⟨0, 1, 0⟩ else ⟨1, 0, 0⟩
            let t1x := normal.y * tangent.z - normal.z * tangent.y
            let t1y := normal.z * tangent.x - normal.x * tangent.z
            let t1z := normal.x * tangent.y - normal.y * tangent.x
            let t1len0 := o.sqrt (t1x * t1x + t1y * t1y + t1z * t1z)
            let t1len := if t1len0 = 0 then 1 else t1len0
            let nt1x := t1x / t1len
            let nt1y := t1y / t1len
            let nt1z := t1z / t1len
            let t2x := normal.y * nt1z - normal.z * nt1y
            let t2y := normal.z * nt1x - normal.x * nt1z
            let t2z := normal.x * nt1y - normal.y * nt1x
            let sprayMult := sprayStrength * (1/2 + o.rand 3 * (1/2))
            let reflX1 := reflX + (nt1x * o.cos sprayAngle + t2x * o.sin sprayAngle) * sprayMult
            let reflY1 := reflY + (nt1y * o.cos sprayAngle + t2y * o.sin sprayAngle) * sprayMult
            let reflZ1 := reflZ + (nt1z * o.cos sprayAngle + t2z * o.sin sprayAngle) * sprayMult
            let hScatter := BOUNCE_SCATTER * (3/10 + o.rand 4 * (7/10))
            let vScatter := WORKER_SCATTER_VERTICAL * (2/5 + o.rand 5 * (3/5))
            let speedFactor := min (impactSpeed / 40) 1
            let sizeReduction := max (BOUNCE_SIZE_REDUCTION - speedFactor * WORKER_MIST_FACTOR) (1/5)
            { p with
              posX := posX2
              posY := posY2
              posZ := posZ2
              velX := reflX1 + (o.rand 6 - 1/2) * hScatter * 2
              velY := reflY1 + o.rand 7 * vScatter + SPLASH_UPWARD_BIAS
              velZ := reflZ1 + (o.rand 8 - 1/2) * hScatter
              state := .BOUNCING
              size := p.size * (sizeReduction * (3/5 + o.rand 9 * (3/5))) }
          else
            { p with
              posX := posX2
              posY := posY2
              posZ := posZ2
              velX := 0
              velY := 0
              velZ := 0
              state := .STUCK
              stickTime := 0 }
        else
          { p with posX := posX1, posY := posY1, posZ := posZ1, velY := velY1 }
      else
        { p with posX := posX1, posY := posY1, posZ := posZ1, velY := velY1 }
    if q.posY < DRIP_REMOVE_Y ∨ q.posZ < -10 then
      { q with state := .INACTIVE, size := 0 }
    else q
  | .BOUNCING =>
    let velY1 := p.velY + DRIP_GRAVITY * dt
    let velX1 := p.velX * BOUNCE_DRAG
    let velZ1 := p.velZ * BOUNCE_DRAG
    let posX1 := p.posX + velX1 * dt
    let posY1 := p.posY + velY1 * dt
    let posZ1 := p.posZ + velZ1 * dt
    let size1 := p.size * (1 - dt * DRIP_SHRINK_RATE)
    if posY1 < DRIP_REMOVE_Y ∨ size1 < DRIP_MIN_SIZE then
      { p with
        posX := posX1
        posY := posY1
        posZ := posZ1
        velX := velX1
        velY := velY1
        velZ := velZ1
        state := .INACTIVE
        size := 0 }
    else
      { p with
        posX := posX1
        posY := posY1
        posZ := posZ1
        velX := velX1
        velY := velY1
        velZ := velZ1
        size := size1 }
  | .STUCK =>
    let stickTime1 := p.stickTime + dt
    let posX1 := p.posX +
      o.sin (time * STICK_JITTER_SPEED + p.posY * 3) * STICK_JITTER_AMOUNT
    let stickDuration := STICK_DURATION_MIN +
      p.slideSpeed * (STICK_DURATION_MAX - STICK_DURATION_MIN)
    if stickDuration < stickTime1 then
      { p with
        posX := posX1
        stickTime := stickTime1
        state := .DRIPPING
        velY := DRIP_INITIAL_VELOCITY }
    else
      { p with posX := posX1, stickTime := stickTime1 }
  | .DRIPPING =>
    let velY1 := p.velY + DRIP_GRAVITY * dt
    let velX1 := p.velX * (99/100)
    let velZ1 := p.velZ * (99/100)
    let posX1 := p.posX + velX1 * dt
    let posY1 := p.posY + velY1 * dt
    let posZ1 := p.posZ + velZ1 * dt
    let size1 := p.size * (1 - dt * DRIP_SHRINK_RATE)
    if posY1 < DRIP_REMOVE_Y ∨ size1 < DRIP_MIN_SIZE then
      { p with
        posX := posX1
        posY := posY1
        posZ := posZ1
        velX := velX1
        velY := velY1
        velZ := velZ1
        state := .INACTIVE
        size := 0 }
    else
      { p with
        posX := posX1
        posY := posY1
        posZ := posZ1
        velX := velX1
        velY := velY1
        velZ := velZ1
        size := size1 }

/-- One spawn request: the three position entries, three velocity entries,
size and slide speed the spawn loop reads for one particle. -/
structure SpawnItem where
  posX : ℚ
  posY : ℚ
  posZ : ℚ
  velX : ℚ
  velY : ℚ
  velZ : ℚ
  size : ℚ
  slideSpeed : ℚ
deriving DecidableEq, Repr

/-- The particle a spawn iteration writes: all ten fields assigned, state
`FALLING`, stick timer `0`. -/
def mkFalling (r : SpawnItem) : Particle :=
  ⟨r.posX, r.posY, r.posZ, r.velX, r.velY, r.velZ, .FALLING, r.size, 0, r.slideSpeed⟩

/-- The spawn loop of `ParticleSystem.spawn` (`gpu-particles.js` 306-319)
and `WorkerParticleSystem.spawn` (`particle-system.js` 152-165):
`for (i = 0; i < count && this.count < this.max; i++)` writes the next free
slot.  The store is modelled as the list of its first `count` slots. -/
def spawnLoop (maxParticles : ℕ) (ps : List Particle) :
    List SpawnItem → List Particle
  | [] => ps
  | r :: rs =>
    if ps.length < maxParticles then spawnLoop maxParticles (ps ++ [mkFalling r]) rs
    else ps

/-- `spawn` in both backends: the new store plus the method's return value.
Neither source function has a `return` statement, so the JS call evaluates
to `undefined`, modelled as `none` — in particular the number of admitted
particles is *not* returned. -/
def spawn (maxParticles : ℕ) (ps : List Particle) (reqs : List SpawnItem) :
    List Particle × Option ℕ :=
  (spawnLoop maxParticles ps reqs, none)

/-- The update pass over slots `i₀, i₀+1, ...` (`gpu-particles.js` 331-502):
skips `INACTIVE` slots, updates the rest, and counts every non-`INACTIVE`
slot exactly once; returns the new store and `activeCount`. -/
def runUpdate (os : ℕ → Oracle) (sdf : Option SdfData) (dt time : ℚ) :
    ℕ → List Particle → List Particle × ℕ
  | _, [] => ([], 0)
  | i, p :: ps =>
    let rest := runUpdate os sdf dt time (i + 1) ps
    if p.state = PState.INACTIVE then (p :: rest.1, rest.2)
    else (updateParticle (os i) sdf dt time p :: rest.1, rest.2 + 1)

/-- `ParticleSystem.reset` (538-542): `count = 0` and every slot marked
`INACTIVE`; the live-slot list (slots below `count`) becomes empty. -/
def resetSys (_ps : List Particle) : List Particle := []

/-- "Every slot below the high-water mark that is INACTIVE has size 0". -/
def SizeInv (ps : List Particle) : Prop :=
  ∀ p ∈ ps, p.state = PState.INACTIVE → p.size = 0

/-- The base-voxel coordinates `(x0,y0,z0)` computed by `sampleSDF`. -/
def voxelBase (s : SdfData) (x y z : ℚ) : ℤ × ℤ × ℤ :=
  (⌊(x - s.bbox.min.x) / s.stepX - 1/2⌋,
   ⌊(y - s.bbox.min.y) / s.stepY - 1/2⌋,
   ⌊(z - s.bbox.min.z) / s.stepZ - 1/2⌋)

/-- The sampler's bounds check: the base voxel lies outside
`[0, resolution-2]` in some axis. -/
def outsideGrid (s : SdfData) (x y z : ℚ) : Prop :=
  (voxelBase s x y z).1 < 0 ∨ (s.resolution : ℤ) - 1 ≤ (voxelBase s x y z).1 ∨
  (voxelBase s x y z).2.1 < 0 ∨ (s.resolution : ℤ) - 1 ≤ (voxelBase s x y z).2.1 ∨
  (voxelBase s x y z).2.2 < 0 ∨ (s.resolution : ℤ) - 1 ≤ (voxelBase s x y z).2.2

instance (s : SdfData) (x y z : ℚ) : Decidable (outsideGrid s x y z) := by
  unfold outsideGrid
  infer_instance

/-- The flat index `i000 = x0 + y0*r + z0*r²` of the cell's low corner. -/
def baseIndex (s : SdfData) (x y z : ℚ) : ℤ :=
  (voxelBase s x y z).1 + (voxelBase s x y z).2.1 * (s.resolution : ℤ) +
    (voxelBase s x y z).2.2 * ((s.resolution : ℤ) * (s.resolution : ℤ))

-- Concrete instances used by the witnesses.
def oEx : Oracle := ⟨fun _ => 0, fun _ => 0, fun _ => 0, fun _ => 0, 0⟩

def pEx : Particle := ⟨0, 0, 0, 0, 0, 0, PState.FALLING, 1, 0, 0⟩

def pDr : Particle := ⟨0, 0, 0, 0, 0, 0, PState.DRIPPING, 1, 0, 0⟩

def pIn : Particle := ⟨0, 0, 0, 0, 0, 0, PState.INACTIVE, 0, 0, 0⟩

def pCx : Particle := ⟨0, -21, 0, 0, 100, 0, PState.FALLING, 1, 0, 0⟩

def pCx2 : Particle := ⟨0, -21, 0, 0, 0, 0, PState.FALLING, 1, 0, 0⟩

def sW : SdfData := ⟨fun _ => 1, ⟨⟨0, 0, 0⟩, ⟨4, 4, 4⟩⟩, 4, 1, 1, 1⟩

def pOut : Particle := ⟨0, 0, -50, 0, 0, 0, PState.FALLING, 1, 0, 0⟩

/-- An oracle whose square root satisfies the bound `q² ≤ c → q ≤ sqrt c`
(taking `sqrt c = c + 1`), used to discharge oracle hypotheses in witnesses. -/
def oW : Oracle := ⟨fun _ => 0, fun c => c + 1, fun _ => 0, fun _ => 0, 0⟩

/-- The indices visited by `for (i = 0; i < total; i += step)`:
`0, step, 2·step, ...`, i.e. `⌈total/step⌉` of them (`step ≥ 1` in both
validators whenever the loop runs). -/
def strideIndices (total step : ℕ) : List ℕ :=
  List.range' 0 ((total + step - 1) / step) step

/-- The values the validators read: `data[i]` over the stride. -/
def sampledVals (data : List ℚ) (step : ℕ) : List ℚ :=
  (strideIndices data.length step).map fun i => data.getD i 0

/-- Running minimum seeded with `Infinity`: `none` while no sample has been
seen (the JS accumulator still holds `Infinity`), `some` of the minimum
afterwards. -/
def foldMinQ (vs : List ℚ) : Option ℚ :=
  vs.foldl (fun m v => match m with | none => some v | some m => some (min m v)) none

/-- Running maximum seeded with `-Infinity`, same convention. -/
def foldMaxQ (vs : List ℚ) : Option ℚ :=
  vs.foldl (fun m v => match m with | none => some v | some m => some (max m v)) none

/-- `validateSDF` from `src/unnamed/part_005` (48-86): reject a missing
data array; sample `min(1000, total)` values at stride
`⌊total/sampleSize⌋`; reject when `maxVal - minVal < 0.01` or when
`minVal > 1.0`, else accept.  With no samples (empty array) the source's
range is `-∞ - ∞ = -Infinity < 0.01`, hence reject: the `none` match arm. -/
def validateSDF (result : Option (List ℚ)) : Bool :=
  match result with
  | none => false
  | some data =>
    let total := data.length
    let sampleSize := min 1000 total
    let step := total / sampleSize
    let vs := sampledVals data step
    match foldMinQ vs, foldMaxQ vs with
    | some mn, some mx =>
      if mx - mn < 1/100 then false
      else if 1 < mn then false
      else true
    | _, _ => false

/-- The cache validation inlined in `initParticleSystem`
(`src/unnamed/part_002`, 76-104): reject a missing or empty array; sample
at stride `max(1, ⌊length/100⌋)`; accept iff `maxVal - minVal > 0.01` AND
`minVal < 1.0` (strict on both, unlike `validateSDF`). -/
def cacheValidate (sdfData : Option (List ℚ)) : Bool :=
  match sdfData with
  | none => false
  | some data =>
    if data.length = 0 then false
    else
      let step := max 1 (data.length / 100)
      let vs := sampledVals data step
      match foldMinQ vs, foldMaxQ vs with
      | some mn, some mx => decide (1/100 < mx - mn ∧ mn < 1)
      | _, _ => false

-- ## Theorems and supporting lemmas

-- ## componentwise simp lemmas

@[simp] lemma add_x (u v : Vec3) : (u + v).x = u.x + v.x := rfl
@[simp] lemma add_y (u v : Vec3) : (u + v).y = u.y + v.y := rfl
@[simp] lemma add_z (u v : Vec3) : (u + v).z = u.z + v.z := rfl
@[simp] lemma sub_x (u v : Vec3) : (u - v).x = u.x - v.x := rfl
@[simp] lemma sub_y (u v : Vec3) : (u - v).y = u.y - v.y := rfl
@[simp] lemma sub_z (u v : Vec3) : (u - v).z = u.z - v.z := rfl
@[simp] lemma smul_x (a : ℚ) (v : Vec3) : (a • v).x = a * v.x := rfl
@[simp] lemma smul_y (a : ℚ) (v : Vec3) : (a • v).y = a * v.y := rfl
@[simp] lemma smul_z (a : ℚ) (v : Vec3) : (a • v).z = a * v.z := rfl
@[simp] lemma zero_x : (0 : Vec3).x = 0 := rfl
@[simp] lemma zero_y : (0 : Vec3).y = 0 := rfl
@[simp] lemma zero_z : (0 : Vec3).z = 0 := rfl

lemma normSq_nonneg (v : Vec3) : 0 ≤ normSq v := by
  unfold normSq dot
  nlinarith [sq_nonneg v.x, sq_nonneg v.y, sq_nonneg v.z]

lemma distSq_nonneg (p q : Vec3) : 0 ≤ distSq p q := normSq_nonneg _

lemma normSq_pos (v : Vec3) (h : v ≠ 0) : 0 < normSq v := by
  rcases lt_or_eq_of_le (normSq_nonneg v) with h' | h'
  · exact h'
  · exfalso
    apply h
    have hx : v.x = 0 := by nlinarith [sq_nonneg v.x, sq_nonneg v.y, sq_nonneg v.z, h'.symm,
      (show normSq v = v.x * v.x + v.y * v.y + v.z * v.z from rfl)]
    have hy : v.y = 0 := by nlinarith [sq_nonneg v.x, sq_nonneg v.y, sq_nonneg v.z, h'.symm,
      (show normSq v = v.x * v.x + v.y * v.y + v.z * v.z from rfl)]
    have hz : v.z = 0 := by nlinarith [sq_nonneg v.x, sq_nonneg v.y, sq_nonneg v.z, h'.symm,
      (show normSq v = v.x * v.x + v.y * v.y + v.z * v.z from rfl)]
    ext <;> simp [hx, hy, hz]

lemma lagrange (u v : Vec3) :
    normSq (cross u v) = normSq u * normSq v - (dot u v) ^ 2 := by
  unfold normSq dot cross
  ring

lemma cross_eq_zero_of_left_zero (v : Vec3) : cross 0 v = 0 := by
  unfold cross
  ext <;> simp


-- ## Gram data of a nondegenerate triangle

lemma A11_pos (t : Tri) (hnd : Nondegenerate t) : 0 < dot (t.b - t.a) (t.b - t.a) := by
  apply normSq_pos
  intro h
  apply hnd
  rw [h]
  exact cross_eq_zero_of_left_zero _

lemma gram_pos (t : Tri) (hnd : Nondegenerate t) :
    (dot (t.b - t.a) (t.c - t.a)) ^ 2 <
      dot (t.b - t.a) (t.b - t.a) * dot (t.c - t.a) (t.c - t.a) := by
  have h := normSq_pos _ hnd
  rw [lagrange] at h
  unfold normSq at h
  linarith

-- ## scalar optimality lemmas

lemma A22_pos_of_gram (A11 A12 A22 : ℚ) (hA11 : 0 < A11) (hG : A12 ^ 2 < A11 * A22) :
    0 < A22 := by
  nlinarith [sq_nonneg A12]

lemma N_pos (A11 A12 A22 : ℚ) (hA11 : 0 < A11) (hG : A12 ^ 2 < A11 * A22) :
    0 < A11 - 2 * A12 + A22 := by
  have hA22 : 0 < A22 := A22_pos_of_gram A11 A12 A22 hA11 hG
  by_contra h
  push_neg at h
  have h1 : 0 ≤ 2 * A12 - A11 - A22 := by linarith
  have h2 : 0 ≤ 2 * A12 + A11 + A22 := by linarith
  nlinarith [mul_nonneg h1 h2, sq_nonneg (A11 - A22)]

lemma regionA (A11 A12 A22 b1 b2 v w : ℚ) (hA11 : 0 < A11) (hG : A12 ^ 2 < A11 * A22)
    (hb1 : b1 ≤ 0) (hb2 : b2 ≤ 0) (hv : 0 ≤ v) (hw : 0 ≤ w) :
    gQ A11 A12 A22 b1 b2 0 0 ≤ gQ A11 A12 A22 b1 b2 v w := by
  unfold gQ
  nlinarith [sq_nonneg (A11 * v + A12 * w), mul_nonneg (sq_nonneg w) (sub_pos.2 hG).le,
    mul_nonneg (mul_nonneg (neg_nonneg.2 hb1) hv) hA11.le,
    mul_nonneg (mul_nonneg (neg_nonneg.2 hb2) hw) hA11.le]

lemma regionAB (A11 A12 A22 b1 b2 v w : ℚ) (hA11 : 0 < A11) (hG : A12 ^ 2 < A11 * A22)
    (hvc : A11 * b2 - A12 * b1 ≤ 0) (hw : 0 ≤ w) :
    gQ A11 A12 A22 b1 b2 (b1 / A11) 0 ≤ gQ A11 A12 A22 b1 b2 v w := by
  have hval : gQ A11 A12 A22 b1 b2 (b1 / A11) 0 = -b1 ^ 2 / A11 := by
    field_simp [gQ]; ring
  rw [hval, div_le_iff₀ hA11]
  unfold gQ
  nlinarith [sq_nonneg (A11 * v + A12 * w - b1), mul_nonneg (sq_nonneg w) (sub_pos.2 hG).le,
    mul_nonneg hw (neg_nonneg.2 hvc)]

lemma regionInt (A11 A12 A22 b1 b2 v w : ℚ) (hA11 : 0 < A11) (hG : A12 ^ 2 < A11 * A22) :
    gQ A11 A12 A22 b1 b2 ((A22 * b1 - A12 * b2) / (A11 * A22 - A12 ^ 2))
      ((A11 * b2 - A12 * b1) / (A11 * A22 - A12 ^ 2)) ≤ gQ A11 A12 A22 b1 b2 v w := by
  have hGpos : 0 < A11 * A22 - A12 ^ 2 := sub_pos.2 hG
  have hval : gQ A11 A12 A22 b1 b2 ((A22 * b1 - A12 * b2) / (A11 * A22 - A12 ^ 2))
      ((A11 * b2 - A12 * b1) / (A11 * A22 - A12 ^ 2))
      = -(A22 * b1 ^ 2 - 2 * A12 * b1 * b2 + A11 * b2 ^ 2) / (A11 * A22 - A12 ^ 2) := by
    field_simp [gQ]; ring
  rw [hval, div_le_iff₀ hGpos]
  unfold gQ
  nlinarith [mul_nonneg (sq_nonneg (A11 * v + A12 * w - b1)) hGpos.le,
    sq_nonneg ((A11 * A22 - A12 ^ 2) * w - (A11 * b2 - A12 * b1))]

lemma gQ_rebaseB (A11 A12 A22 b1 b2 v w : ℚ) :
    gQ (A11 - 2 * A12 + A22) (A11 - A12) A11 (b2 - A12 - (b1 - A11)) (-(b1 - A11)) w (1 - v - w)
      = gQ A11 A12 A22 b1 b2 v w + (2 * b1 - A11) := by
  unfold gQ; ring

lemma gQ_rebaseC (A11 A12 A22 b1 b2 v w : ℚ) :
    gQ A22 (A22 - A12) (A11 - 2 * A12 + A22) (A22 - b2) (b1 - A12 - (b2 - A22)) (1 - v - w) v
      = gQ A11 A12 A22 b1 b2 v w + (2 * b2 - A22) := by
  unfold gQ; ring

-- sign of vc under fall-through of all six branch tests
lemma vcAux (A11 A12 A22 b1 b2 : ℚ) (hA11 : 0 < A11) (hA22 : 0 < A22)
    (hG : A12 ^ 2 < A11 * A22)
    (hN1 : 0 < b1 ∨ 0 < b2)
    (hN2 : b1 - A11 < 0 ∨ b1 - A11 < b2 - A12)
    (hN3 : 0 < A11 * b2 - A12 * b1 ∨ b1 < 0 ∨ 0 < b1 - A11)
    (hN4 : b2 - A22 < 0 ∨ b2 - A22 < b1 - A12)
    (hN6 : 0 < (b1 - A11) * (b2 - A22) - (b1 - A12) * (b2 - A12) ∨
           b2 - A12 - (b1 - A11) < 0 ∨ b1 - A12 - (b2 - A22) < 0)
    (hN5 : 0 < A22 * b1 - A12 * b2 ∨ b2 < 0 ∨ 0 < b2 - A22) :
    0 ≤ A11 * b2 - A12 * b1 := by
  by_contra hvc
  push_neg at hvc
  rcases hN3 with h | hb1 | hd3
  · linarith
  · have hb2 : 0 < b2 := by
      rcases hN1 with h | h
      · linarith
      · exact h
    have hA12 : A12 < 0 := by nlinarith [mul_pos hA11 hb2]
    rcases hN5 with hvb | h | hb2A
    · have k1 : A11 * b2 ^ 2 < A12 * b1 * b2 := by nlinarith
      have k2 : A22 * b1 ^ 2 < A12 * b1 * b2 := by nlinarith
      have hX : 0 < A12 * b1 * b2 := lt_trans (mul_pos hA11 (pow_pos hb2 2)) k1
      have k3 : (A11 * b2 ^ 2) * (A22 * b1 ^ 2) < (A12 * b1 * b2) ^ 2 := by
        nlinarith [mul_pos hX (show (0:ℚ) < A12 * b1 * b2 - A11 * b2 ^ 2 by linarith),
          mul_nonneg (mul_pos hA11 (pow_pos hb2 2)).le
            (show (0:ℚ) ≤ A12 * b1 * b2 - A22 * b1 ^ 2 by linarith)]
      have hbb : 0 < (b1 * b2) ^ 2 :=
        pow_two_pos_of_ne_zero (ne_of_lt (mul_neg_of_neg_of_pos hb1 hb2))
      nlinarith [k3, mul_pos hbb (sub_pos.2 hG)]
    · linarith
    · have hd5 : b2 - A22 < b1 - A12 := by
        rcases hN4 with h | h
        · linarith
        · exact h
      have hb1A12 : A12 < b1 := by linarith
      nlinarith [mul_pos hA11 (show 0 < b2 - A22 by linarith),
        mul_lt_mul_of_neg_left hb1A12 hA12]
  · have hd43 : b1 - A11 < b2 - A12 := by
      rcases hN2 with h | h
      · linarith
      · exact h
    rcases le_or_lt A12 0 with hA12 | hA12
    · have hb2 : b2 < 0 := by
        nlinarith [mul_nonpos_of_nonpos_of_nonneg hA12 (by linarith : (0:ℚ) ≤ b1)]
      have hD3 : 0 < b2 - A12 - (b1 - A11) := by linarith
      have hD6 : 0 < b1 - A12 - (b2 - A22) := by linarith
      have hva : 0 < (b1 - A11) * (b2 - A22) - (b1 - A12) * (b2 - A12) := by
        rcases hN6 with h | h | h
        · exact h
        · linarith
        · linarith
      nlinarith [mul_pos (show 0 < b1 - A11 by linarith) (show 0 < A22 - b2 by linarith),
        mul_pos (show 0 < b1 - A12 by linarith) (show 0 < b2 - A12 by linarith)]
    · have hb2 : A12 < b2 := by linarith
      have hP : A11 < A12 := by
        by_contra hc
        push_neg at hc
        nlinarith [mul_pos hA11 (show 0 < b2 - A12 - b1 + A11 by linarith),
          mul_nonneg (show 0 ≤ A11 - A12 by linarith) (show 0 ≤ b1 - A11 by linarith)]
      rcases hN6 with hva | h | hD6
      · nlinarith [mul_pos (sub_pos.2 hP) (show 0 < A12 * b1 - A11 * b2 by linarith),
          mul_pos (show 0 < b1 - A11 by linarith) (sub_pos.2 hG)]
      · linarith
      · have hd6 : b2 - A22 < 0 := by
          rcases hN4 with h' | h'
          · exact h'
          · linarith
        have hb1A12 : b1 < A12 := by linarith
        nlinarith [mul_pos (sub_pos.2 hP) (show 0 < A12 - b1 by linarith),
          mul_pos hA11 (show 0 < b2 - b1 + A12 - A22 by linarith)]

-- sign of va when the BC test failed through its second conjunct
lemma vaAux (A11 A12 A22 b1 b2 : ℚ) (hA11 : 0 < A11) (hA22 : 0 < A22)
    (hG : A12 ^ 2 < A11 * A22)
    (hd3 : b1 - A11 < 0)
    (hD3 : b2 - A12 - (b1 - A11) < 0)
    (hvc : 0 ≤ A11 * b2 - A12 * b1) :
    0 ≤ (b1 - A11) * (b2 - A22) - (b1 - A12) * (b2 - A12) := by
  by_contra hva
  push_neg at hva
  have hN : 0 < A11 - 2 * A12 + A22 := N_pos A11 A12 A22 hA11 hG
  rcases le_or_lt A12 A11 with hc | hc
  · nlinarith [mul_nonneg (show 0 ≤ A11 - A12 by linarith)
      (show 0 ≤ b1 + A12 - A11 - b2 by linarith),
      mul_pos hN (show 0 < A11 - b1 by linarith)]
  · nlinarith [mul_nonneg (show 0 ≤ A12 - A11 by linarith) hvc,
      mul_pos (show 0 < A11 - b1 by linarith) (sub_pos.2 hG)]

-- all three barycentric numerators are nonnegative at the final branch
lemma interiorSigns (A11 A12 A22 b1 b2 : ℚ) (hA11 : 0 < A11) (hA22 : 0 < A22)
    (hG : A12 ^ 2 < A11 * A22)
    (hN1 : 0 < b1 ∨ 0 < b2)
    (hN2 : b1 - A11 < 0 ∨ b1 - A11 < b2 - A12)
    (hN3 : 0 < A11 * b2 - A12 * b1 ∨ b1 < 0 ∨ 0 < b1 - A11)
    (hN4 : b2 - A22 < 0 ∨ b2 - A22 < b1 - A12)
    (hN5 : 0 < A22 * b1 - A12 * b2 ∨ b2 < 0 ∨ 0 < b2 - A22)
    (hN6 : 0 < (b1 - A11) * (b2 - A22) - (b1 - A12) * (b2 - A12) ∨
           b2 - A12 - (b1 - A11) < 0 ∨ b1 - A12 - (b2 - A22) < 0) :
    0 ≤ A22 * b1 - A12 * b2 ∧ 0 ≤ A11 * b2 - A12 * b1 ∧
      0 ≤ (b1 - A11) * (b2 - A22) - (b1 - A12) * (b2 - A12) := by
  have hG' : A12 ^ 2 < A22 * A11 := lt_of_lt_of_eq hG (mul_comm _ _)
  have hvc : 0 ≤ A11 * b2 - A12 * b1 :=
    vcAux A11 A12 A22 b1 b2 hA11 hA22 hG hN1 hN2 hN3 hN4 hN6 hN5
  have hN6sym : 0 < (b2 - A22) * (b1 - A11) - (b2 - A12) * (b1 - A12) ∨
      b1 - A12 - (b2 - A22) < 0 ∨ b2 - A12 - (b1 - A11) < 0 := by
    rcases hN6 with h | h | h
    · exact Or.inl (by nlinarith [h])
    · exact Or.inr (Or.inr h)
    · exact Or.inr (Or.inl h)
  have hvb : 0 ≤ A22 * b1 - A12 * b2 :=
    vcAux A22 A12 A11 b2 b1 hA22 hA11 hG' hN1.symm hN4 hN5 hN2 hN6sym hN3
  refine ⟨hvb, hvc, ?_⟩
  rcases hN6 with h | h | h
  · linarith
  · have hd3 : b1 - A11 < 0 := by
      rcases hN2 with h2 | h2
      · exact h2
      · linarith
    exact vaAux A11 A12 A22 b1 b2 hA11 hA22 hG hd3 h hvc
  · have hd6 : b2 - A22 < 0 := by
      rcases hN4 with h4 | h4
      · exact h4
      · linarith
    have h' := vaAux A22 A12 A11 b2 b1 hA22 hA11 hG' hd6 h hvb
    nlinarith [h']

-- each branch value is minimal over the simplex and is attained inside it
lemma distSqBranches_spec (A11 A12 A22 b1 b2 c0 : ℚ)
    (hA11 : 0 < A11) (hA22 : 0 < A22) (hG : A12 ^ 2 < A11 * A22) :
    ∃ v₀ w₀ : ℚ, 0 ≤ v₀ ∧ 0 ≤ w₀ ∧ v₀ + w₀ ≤ 1 ∧
      distSqBranches A11 A12 A22 b1 b2 c0 = c0 + gQ A11 A12 A22 b1 b2 v₀ w₀ ∧
      ∀ v w : ℚ, 0 ≤ v → 0 ≤ w → v + w ≤ 1 →
        gQ A11 A12 A22 b1 b2 v₀ w₀ ≤ gQ A11 A12 A22 b1 b2 v w := by
  have hN : 0 < A11 - 2 * A12 + A22 := N_pos A11 A12 A22 hA11 hG
  have hGpos : 0 < A11 * A22 - A12 ^ 2 := sub_pos.2 hG
  unfold distSqBranches
  split_ifs with h1 h2 h3 h4 h5 h6
  · -- vertex A
    exact ⟨0, 0, le_refl 0, le_refl 0, by norm_num,
      by unfold gQ; ring,
      fun v w hv hw hvw => regionA A11 A12 A22 b1 b2 v w hA11 hG h1.1 h1.2 hv hw⟩
  · -- vertex B via the frame based at B
    refine ⟨1, 0, by norm_num, le_refl 0, by norm_num, rfl, fun v w hv hw hvw => ?_⟩
    have hG' : (A11 - A12) ^ 2 < (A11 - 2 * A12 + A22) * A11 := by nlinarith [hG]
    have h := regionA (A11 - 2 * A12 + A22) (A11 - A12) A11
      (b2 - A12 - (b1 - A11)) (-(b1 - A11)) w (1 - v - w) hN hG'
      (by linarith [h2.2]) (by linarith [h2.1]) hw (by linarith)
    have r1 := gQ_rebaseB A11 A12 A22 b1 b2 v w
    have r2 := gQ_rebaseB A11 A12 A22 b1 b2 1 0
    rw [show (1:ℚ) - 1 - 0 = 0 by norm_num] at r2
    rw [r1, r2] at h
    linarith
  · -- edge AB
    obtain ⟨hvc, hb1, hb1A⟩ := h3
    have hvc' : A11 * b2 - A12 * b1 ≤ 0 := by linarith [hvc]
    have harg : b1 - (b1 - A11) = A11 := by ring
    rw [harg]
    refine ⟨b1 / A11, 0, div_nonneg hb1 hA11.le, le_refl 0, ?_, rfl,
      fun v w hv hw hvw => regionAB A11 A12 A22 b1 b2 v w hA11 hG hvc' hw⟩
    rw [add_zero]
    exact (div_le_one hA11).2 (by linarith)
  · -- vertex C via the frame based at C
    refine ⟨0, 1, le_refl 0, by norm_num, by norm_num, rfl, fun v w hv hw hvw => ?_⟩
    have hG' : (A22 - A12) ^ 2 < A22 * (A11 - 2 * A12 + A22) := by nlinarith [hG]
    have h := regionA A22 (A22 - A12) (A11 - 2 * A12 + A22)
      (A22 - b2) (b1 - A12 - (b2 - A22)) (1 - v - w) v hA22 hG'
      (by linarith [h4.1]) (by linarith [h4.2]) (by linarith) hv
    have r1 := gQ_rebaseC A11 A12 A22 b1 b2 v w
    have r2 := gQ_rebaseC A11 A12 A22 b1 b2 0 1
    rw [show (1:ℚ) - 0 - 1 = 0 by norm_num] at r2
    rw [r1, r2] at h
    linarith
  · -- edge AC via the frame based at C
    obtain ⟨hvb, hb2, hb2A⟩ := h5
    have harg : b2 - (b2 - A22) = A22 := by ring
    rw [harg]
    refine ⟨0, b2 / A22, le_refl 0, div_nonneg hb2 hA22.le, ?_, rfl,
      fun v w hv hw hvw => ?_⟩
    · rw [zero_add]
      exact (div_le_one hA22).2 (by linarith)
    · have hG' : (A22 - A12) ^ 2 < A22 * (A11 - 2 * A12 + A22) := by nlinarith [hG]
      have hvc' : A22 * (b1 - A12 - (b2 - A22)) - (A22 - A12) * (A22 - b2) ≤ 0 := by
        nlinarith [hvb]
      have h := regionAB A22 (A22 - A12) (A11 - 2 * A12 + A22)
        (A22 - b2) (b1 - A12 - (b2 - A22)) (1 - v - w) v hA22 hG' hvc' hv
      have r1 := gQ_rebaseC A11 A12 A22 b1 b2 v w
      have r2 := gQ_rebaseC A11 A12 A22 b1 b2 0 (b2 / A22)
      rw [show (1:ℚ) - 0 - b2 / A22 = (A22 - b2) / A22 by field_simp] at r2
      rw [r1, r2] at h
      linarith
  · -- edge BC via the frame based at B
    obtain ⟨hva, hD3, hD6⟩ := h6
    have hNeq : b2 - A12 - (b1 - A11) + (b1 - A12 - (b2 - A22)) = A11 - 2 * A12 + A22 := by
      ring
    rw [hNeq]
    have ht0 : 0 ≤ (b2 - A12 - (b1 - A11)) / (A11 - 2 * A12 + A22) :=
      div_nonneg (by linarith) hN.le
    have ht1 : (b2 - A12 - (b1 - A11)) / (A11 - 2 * A12 + A22) ≤ 1 :=
      (div_le_one hN).2 (by linarith)
    refine ⟨1 - (b2 - A12 - (b1 - A11)) / (A11 - 2 * A12 + A22),
      (b2 - A12 - (b1 - A11)) / (A11 - 2 * A12 + A22),
      by linarith, ht0, by linarith, rfl, fun v w hv hw hvw => ?_⟩
    have hG' : (A11 - A12) ^ 2 < (A11 - 2 * A12 + A22) * A11 := by nlinarith [hG]
    have hvc' : (A11 - 2 * A12 + A22) * (-(b1 - A11)) -
        (A11 - A12) * (b2 - A12 - (b1 - A11)) ≤ 0 := by nlinarith [hva]
    have h := regionAB (A11 - 2 * A12 + A22) (A11 - A12) A11
      (b2 - A12 - (b1 - A11)) (-(b1 - A11)) w (1 - v - w) hN hG' hvc' (by linarith)
    have r1 := gQ_rebaseB A11 A12 A22 b1 b2 v w
    have r2 := gQ_rebaseB A11 A12 A22 b1 b2
      (1 - (b2 - A12 - (b1 - A11)) / (A11 - 2 * A12 + A22))
      ((b2 - A12 - (b1 - A11)) / (A11 - 2 * A12 + A22))
    rw [show (1:ℚ) - (1 - (b2 - A12 - (b1 - A11)) / (A11 - 2 * A12 + A22)) -
        (b2 - A12 - (b1 - A11)) / (A11 - 2 * A12 + A22) = 0 by ring] at r2
    rw [r1, r2] at h
    linarith
  · -- interior
    simp only [not_and_or, not_le, ge_iff_le] at h1 h2 h3 h4 h5 h6
    have hN1 : 0 < b1 ∨ 0 < b2 := h1
    have hN2 : b1 - A11 < 0 ∨ b1 - A11 < b2 - A12 := h2
    have hN3 : 0 < A11 * b2 - A12 * b1 ∨ b1 < 0 ∨ 0 < b1 - A11 := by
      rcases h3 with h | h | h
      · exact Or.inl (by nlinarith [h])
      · exact Or.inr (Or.inl h)
      · exact Or.inr (Or.inr h)
    have hN4 : b2 - A22 < 0 ∨ b2 - A22 < b1 - A12 := h4
    have hN5 : 0 < A22 * b1 - A12 * b2 ∨ b2 < 0 ∨ 0 < b2 - A22 := by
      rcases h5 with h | h | h
      · exact Or.inl (by nlinarith [h])
      · exact Or.inr (Or.inl h)
      · exact Or.inr (Or.inr h)
    have hN6 : 0 < (b1 - A11) * (b2 - A22) - (b1 - A12) * (b2 - A12) ∨
        b2 - A12 - (b1 - A11) < 0 ∨ b1 - A12 - (b2 - A22) < 0 := h6
    obtain ⟨hvb, hvc, hva⟩ := interiorSigns A11 A12 A22 b1 b2 hA11 hA22 hG
      hN1 hN2 hN3 hN4 hN5 hN6
    have hsum : (b1 - A11) * (b2 - A22) - (b1 - A12) * (b2 - A12) +
        ((b1 - A12) * b2 - b1 * (b2 - A22)) + (b1 * (b2 - A12) - (b1 - A11) * b2) =
        A11 * A22 - A12 ^ 2 := by ring
    rw [hsum]
    have hvb' : (b1 - A12) * b2 - b1 * (b2 - A22) = A22 * b1 - A12 * b2 := by ring
    have hvc' : b1 * (b2 - A12) - (b1 - A11) * b2 = A11 * b2 - A12 * b1 := by ring
    rw [hvb', hvc', mul_one_div, mul_one_div]
    refine ⟨(A22 * b1 - A12 * b2) / (A11 * A22 - A12 ^ 2),
      (A11 * b2 - A12 * b1) / (A11 * A22 - A12 ^ 2),
      div_nonneg (by linarith) hGpos.le, div_nonneg (by linarith) hGpos.le, ?_, rfl,
      fun v w hv hw hvw => regionInt A11 A12 A22 b1 b2 v w hA11 hG⟩
    rw [div_add_div_same, div_le_one hGpos]
    nlinarith [hva]

lemma distSq_baryPoint (p : Vec3) (t : Tri) (v w : ℚ) :
    distSq p (baryPoint t v w) =
      normSq (p - t.a) +
        gQ (dot (t.b - t.a) (t.b - t.a)) (dot (t.b - t.a) (t.c - t.a))
          (dot (t.c - t.a) (t.c - t.a)) (dot (t.b - t.a) (p - t.a))
          (dot (t.c - t.a) (p - t.a)) v w := by
  unfold distSq normSq dot baryPoint gQ
  simp
  ring

-- branch-value identities, with the barycentric parameters kept abstract
lemma branchValB (p : Vec3) (t : Tri) :
    normSq (p - t.b) =
      normSq (p - t.a) + gQ (dot (t.b - t.a) (t.b - t.a)) (dot (t.b - t.a) (t.c - t.a))
        (dot (t.c - t.a) (t.c - t.a)) (dot (t.b - t.a) (p - t.a))
        (dot (t.c - t.a) (p - t.a)) 1 0 := by
  simp only [gQ, normSq, dot, sub_x, sub_y, sub_z]
  ring

lemma branchValC (p : Vec3) (t : Tri) :
    normSq (p - t.c) =
      normSq (p - t.a) + gQ (dot (t.b - t.a) (t.b - t.a)) (dot (t.b - t.a) (t.c - t.a))
        (dot (t.c - t.a) (t.c - t.a)) (dot (t.b - t.a) (p - t.a))
        (dot (t.c - t.a) (p - t.a)) 0 1 := by
  simp only [gQ, normSq, dot, sub_x, sub_y, sub_z]
  ring

lemma branchValAB (p : Vec3) (t : Tri) (V : ℚ) :
    distSq p (t.a + V • (t.b - t.a)) =
      normSq (p - t.a) + gQ (dot (t.b - t.a) (t.b - t.a)) (dot (t.b - t.a) (t.c - t.a))
        (dot (t.c - t.a) (t.c - t.a)) (dot (t.b - t.a) (p - t.a))
        (dot (t.c - t.a) (p - t.a)) V 0 := by
  simp only [gQ, distSq, normSq, dot, sub_x, sub_y, sub_z, add_x, add_y, add_z,
    smul_x, smul_y, smul_z]
  ring

lemma branchValAC (p : Vec3) (t : Tri) (W : ℚ) :
    distSq p (t.a + W • (t.c - t.a)) =
      normSq (p - t.a) + gQ (dot (t.b - t.a) (t.b - t.a)) (dot (t.b - t.a) (t.c - t.a))
        (dot (t.c - t.a) (t.c - t.a)) (dot (t.b - t.a) (p - t.a))
        (dot (t.c - t.a) (p - t.a)) 0 W := by
  simp only [gQ, distSq, normSq, dot, sub_x, sub_y, sub_z, add_x, add_y, add_z,
    smul_x, smul_y, smul_z]
  ring

lemma branchValBC (p : Vec3) (t : Tri) (T : ℚ) :
    distSq p (t.b + T • (t.c - t.b)) =
      normSq (p - t.a) + gQ (dot (t.b - t.a) (t.b - t.a)) (dot (t.b - t.a) (t.c - t.a))
        (dot (t.c - t.a) (t.c - t.a)) (dot (t.b - t.a) (p - t.a))
        (dot (t.c - t.a) (p - t.a)) (1 - T) T := by
  simp only [gQ, distSq, normSq, dot, sub_x, sub_y, sub_z, add_x, add_y, add_z,
    smul_x, smul_y, smul_z]
  ring

lemma branchValInt (p : Vec3) (t : Tri) (V W : ℚ) :
    distSq p (t.a + V • (t.b - t.a) + W • (t.c - t.a)) =
      normSq (p - t.a) + gQ (dot (t.b - t.a) (t.b - t.a)) (dot (t.b - t.a) (t.c - t.a))
        (dot (t.c - t.a) (t.c - t.a)) (dot (t.b - t.a) (p - t.a))
        (dot (t.c - t.a) (p - t.a)) V W := by
  simp only [gQ, distSq, normSq, dot, sub_x, sub_y, sub_z, add_x, add_y, add_z,
    smul_x, smul_y, smul_z]
  ring

-- the source function agrees with the scalar branch form
lemma pointToTriangleDistSq_eq_branches (p : Vec3) (t : Tri) :
    pointToTriangleDistSq p t =
      distSqBranches (dot (t.b - t.a) (t.b - t.a)) (dot (t.b - t.a) (t.c - t.a))
        (dot (t.c - t.a) (t.c - t.a)) (dot (t.b - t.a) (p - t.a))
        (dot (t.c - t.a) (p - t.a)) (normSq (p - t.a)) := by
  have e3 : dot (t.b - t.a) (p - t.b) =
      dot (t.b - t.a) (p - t.a) - dot (t.b - t.a) (t.b - t.a) := by
    unfold dot; simp; ring
  have e4 : dot (t.c - t.a) (p - t.b) =
      dot (t.c - t.a) (p - t.a) - dot (t.b - t.a) (t.c - t.a) := by
    unfold dot; simp; ring
  have e5 : dot (t.b - t.a) (p - t.c) =
      dot (t.b - t.a) (p - t.a) - dot (t.b - t.a) (t.c - t.a) := by
    unfold dot; simp; ring
  have e6 : dot (t.c - t.a) (p - t.c) =
      dot (t.c - t.a) (p - t.a) - dot (t.c - t.a) (t.c - t.a) := by
    unfold dot; simp; ring
  unfold pointToTriangleDistSq distSqBranches
  simp only [e3, e4, e5, e6]
  split_ifs with h1 h2 h3 h4 h5 h6
  · rfl
  · exact branchValB p t
  · exact branchValAB p t _
  · exact branchValC p t
  · exact branchValAC p t _
  · exact branchValBC p t _
  · exact branchValInt p t _ _

/-- C1: for every point `P` and non-degenerate triangle `T`,
`pointToTriangleDist(P,T)` returns the exact Euclidean distance from `P` to
the closest point of `T` — in squared form: `pointToTriangleDistSq` is
attained at some point of the triangle and is a lower bound on the squared
distance to every point of the triangle; in particular it is nonnegative. -/
theorem pointToTriangleDistSq_correct (p : Vec3) (t : Tri) (hnd : Nondegenerate t) :
    (∃ q, inTriangle t q ∧ pointToTriangleDistSq p t = distSq p q) ∧
    (∀ q, inTriangle t q → pointToTriangleDistSq p t ≤ distSq p q) ∧
    0 ≤ pointToTriangleDistSq p t := by
  have hA11 := A11_pos t hnd
  have hG := gram_pos t hnd
  have hA22 := A22_pos_of_gram _ _ _ hA11 hG
  obtain ⟨v₀, w₀, hv₀, hw₀, hvw₀, hval, hmin⟩ :=
    distSqBranches_spec (dot (t.b - t.a) (t.b - t.a)) (dot (t.b - t.a) (t.c - t.a))
      (dot (t.c - t.a) (t.c - t.a)) (dot (t.b - t.a) (p - t.a))
      (dot (t.c - t.a) (p - t.a)) (normSq (p - t.a)) hA11 hA22 hG
  rw [pointToTriangleDistSq_eq_branches, hval]
  refine ⟨⟨baryPoint t v₀ w₀, ⟨v₀, w₀, hv₀, hw₀, hvw₀, rfl⟩, (distSq_baryPoint p t v₀ w₀).symm⟩,
    ?_, ?_⟩
  · rintro q ⟨v, w, hv, hw, hvw, rfl⟩
    rw [distSq_baryPoint]
    exact add_le_add_left (hmin v w hv hw hvw) _
  · rw [← distSq_baryPoint]
    exact distSq_nonneg _ _

theorem pointToTriangleDistSq_correct_witness :
    Nondegenerate ⟨⟨0, 0, 0⟩, ⟨1, 0, 0⟩, ⟨0, 1, 0⟩⟩ ∧
      ((∃ q, inTriangle ⟨⟨0, 0, 0⟩, ⟨1, 0, 0⟩, ⟨0, 1, 0⟩⟩ q ∧
          pointToTriangleDistSq ⟨3, 4, 5⟩ ⟨⟨0, 0, 0⟩, ⟨1, 0, 0⟩, ⟨0, 1, 0⟩⟩ = distSq ⟨3, 4, 5⟩ q) ∧
        (∀ q, inTriangle ⟨⟨0, 0, 0⟩, ⟨1, 0, 0⟩, ⟨0, 1, 0⟩⟩ q →
          pointToTriangleDistSq ⟨3, 4, 5⟩ ⟨⟨0, 0, 0⟩, ⟨1, 0, 0⟩, ⟨0, 1, 0⟩⟩ ≤ distSq ⟨3, 4, 5⟩ q) ∧
        0 ≤ pointToTriangleDistSq ⟨3, 4, 5⟩ ⟨⟨0, 0, 0⟩, ⟨1, 0, 0⟩, ⟨0, 1, 0⟩⟩) := by
  have hnd : Nondegenerate ⟨⟨0, 0, 0⟩, ⟨1, 0, 0⟩, ⟨0, 1, 0⟩⟩ := by
    unfold Nondegenerate
    with_unfolding_all decide
  exact ⟨hnd, pointToTriangleDistSq_correct ⟨3, 4, 5⟩ _ hnd⟩


-- ## bounds lemmas

lemma pointInBounds_expand_other (n : Aabb) (t' : Tri) (q : Vec3)
    (h : pointInBounds n q) : pointInBounds (expandBounds n t') q := by
  obtain ⟨⟨h1, h2⟩, ⟨h3, h4⟩, ⟨h5, h6⟩⟩ := h
  exact ⟨⟨(min_le_left _ _).trans h1, h2.trans (le_max_left _ _)⟩,
    ⟨(min_le_left _ _).trans h3, h4.trans (le_max_left _ _)⟩,
    ⟨(min_le_left _ _).trans h5, h6.trans (le_max_left _ _)⟩⟩

lemma triInBounds_expand_other (n : Aabb) (t t' : Tri) (h : triInBounds n t) :
    triInBounds (expandBounds n t') t :=
  ⟨pointInBounds_expand_other n t' t.a h.1,
   pointInBounds_expand_other n t' t.b h.2.1,
   pointInBounds_expand_other n t' t.c h.2.2⟩

lemma triInBounds_expand_self (n : Aabb) (t : Tri) :
    triInBounds (expandBounds n t) t := by
  refine ⟨⟨⟨?_, ?_⟩, ⟨?_, ?_⟩, ⟨?_, ?_⟩⟩, ⟨⟨?_, ?_⟩, ⟨?_, ?_⟩, ⟨?_, ?_⟩⟩,
    ⟨⟨?_, ?_⟩, ⟨?_, ?_⟩, ⟨?_, ?_⟩⟩⟩
  · exact (min_le_right _ _).trans (min_le_left _ _)
  · exact (le_max_left _ _).trans (le_max_right _ _)
  · exact (min_le_right _ _).trans (min_le_left _ _)
  · exact (le_max_left _ _).trans (le_max_right _ _)
  · exact (min_le_right _ _).trans (min_le_left _ _)
  · exact (le_max_left _ _).trans (le_max_right _ _)
  · exact (min_le_right _ _).trans ((min_le_right _ _).trans (min_le_left _ _))
  · exact ((le_max_left _ _).trans (le_max_right _ _)).trans (le_max_right _ _)
  · exact (min_le_right _ _).trans ((min_le_right _ _).trans (min_le_left _ _))
  · exact ((le_max_left _ _).trans (le_max_right _ _)).trans (le_max_right _ _)
  · exact (min_le_right _ _).trans ((min_le_right _ _).trans (min_le_left _ _))
  · exact ((le_max_left _ _).trans (le_max_right _ _)).trans (le_max_right _ _)
  · exact (min_le_right _ _).trans ((min_le_right _ _).trans (min_le_right _ _))
  · exact ((le_max_right _ _).trans (le_max_right _ _)).trans (le_max_right _ _)
  · exact (min_le_right _ _).trans ((min_le_right _ _).trans (min_le_right _ _))
  · exact ((le_max_right _ _).trans (le_max_right _ _)).trans (le_max_right _ _)
  · exact (min_le_right _ _).trans ((min_le_right _ _).trans (min_le_right _ _))
  · exact ((le_max_right _ _).trans (le_max_right _ _)).trans (le_max_right _ _)

lemma triInBounds_triBounds (t : Tri) : triInBounds (triBounds t) t := by
  refine ⟨⟨⟨?_, ?_⟩, ⟨?_, ?_⟩, ⟨?_, ?_⟩⟩, ⟨⟨?_, ?_⟩, ⟨?_, ?_⟩, ⟨?_, ?_⟩⟩,
    ⟨⟨?_, ?_⟩, ⟨?_, ?_⟩, ⟨?_, ?_⟩⟩⟩
  · exact min_le_left _ _
  · exact le_max_left _ _
  · exact min_le_left _ _
  · exact le_max_left _ _
  · exact min_le_left _ _
  · exact le_max_left _ _
  · exact (min_le_right _ _).trans (min_le_left _ _)
  · exact (le_max_left _ _).trans (le_max_right _ _)
  · exact (min_le_right _ _).trans (min_le_left _ _)
  · exact (le_max_left _ _).trans (le_max_right _ _)
  · exact (min_le_right _ _).trans (min_le_left _ _)
  · exact (le_max_left _ _).trans (le_max_right _ _)
  · exact (min_le_right _ _).trans (min_le_right _ _)
  · exact (le_max_right _ _).trans (le_max_right _ _)
  · exact (min_le_right _ _).trans (min_le_right _ _)
  · exact (le_max_right _ _).trans (le_max_right _ _)
  · exact (min_le_right _ _).trans (min_le_right _ _)
  · exact (le_max_right _ _).trans (le_max_right _ _)

lemma nodeBounds_contains (t : Tri) (ts : List Tri) :
    ∀ u ∈ t :: ts, triInBounds (nodeBounds t ts) u := by
  suffices h : ∀ (l : List Tri) (n : Aabb) (u : Tri),
      (triInBounds n u ∨ u ∈ l) → triInBounds (l.foldl expandBounds n) u by
    intro u hu
    rcases List.mem_cons.1 hu with rfl | hu
    · exact h ts (triBounds u) u (Or.inl (triInBounds_triBounds u))
    · exact h ts (triBounds t) u (Or.inr hu)
  intro l
  induction l with
  | nil =>
    intro n u hu
    rcases hu with h | h
    · exact h
    · simp at h
  | cons t' l ih =>
    intro n u hu
    rcases hu with h | h
    · exact ih _ u (Or.inl (triInBounds_expand_other n u t' h))
    · rcases List.mem_cons.1 h with rfl | h
      · exact ih _ u (Or.inl (triInBounds_expand_self n u))
      · exact ih _ u (Or.inr h)

-- ## build invariants

lemma sortedTris_perm (l : List Tri) (b : Aabb) : (sortedTris l b).Perm l :=
  List.mergeSort_perm _ _

lemma buildBVH_tris_perm (triangles : List Tri) (depth maxDepth minTris : ℕ) :
    (buildBVH triangles depth maxDepth minTris).tris.Perm triangles := by
  induction triangles, depth, maxDepth, minTris using buildBVH.induct with
  | case1 depth maxDepth minTris => simp [buildBVH, BVH.tris]
  | case2 depth maxDepth minTris t ts h =>
    rw [buildBVH, if_pos h]
    exact List.Perm.refl _
  | case3 depth maxDepth minTris t ts bounds hno sorted mid hsplit ihL ihR =>
    rw [buildBVH, if_neg hno]
    dsimp only
    split_ifs with hcond
    · refine ((ihL.append ihR).trans ?_)
      rw [List.take_append_drop]
      exact sortedTris_perm _ _
    · exact absurd hsplit hcond
  | case4 depth maxDepth minTris t ts bounds hno sorted mid hsplit =>
    rw [buildBVH, if_neg hno]
    dsimp only
    split_ifs with hcond
    · exact absurd hcond hsplit
    · exact List.Perm.refl _

lemma buildBVH_WF (triangles : List Tri) (depth maxDepth minTris : ℕ) :
    (buildBVH triangles depth maxDepth minTris).WF := by
  induction triangles, depth, maxDepth, minTris using buildBVH.induct with
  | case1 depth maxDepth minTris =>
    rw [buildBVH]
    intro u hu
    simp at hu
  | case2 depth maxDepth minTris t ts h =>
    rw [buildBVH, if_pos h]
    exact nodeBounds_contains t ts
  | case3 depth maxDepth minTris t ts bounds hno sorted mid hsplit ihL ihR =>
    rw [buildBVH, if_neg hno]
    dsimp only
    split_ifs with hcond
    · refine ⟨ihL, ihR, ?_⟩
      intro u hu
      apply nodeBounds_contains t ts
      rcases List.mem_append.1 hu with h | h
      · have h1 := (buildBVH_tris_perm _ (depth + 1) maxDepth minTris).mem_iff.1 h
        exact (sortedTris_perm _ _).mem_iff.1 (List.take_subset _ _ h1)
      · have h1 := (buildBVH_tris_perm _ (depth + 1) maxDepth minTris).mem_iff.1 h
        exact (sortedTris_perm _ _).mem_iff.1 (List.drop_subset _ _ h1)
    · exact absurd hsplit hcond
  | case4 depth maxDepth minTris t ts bounds hno sorted mid hsplit =>
    rw [buildBVH, if_neg hno]
    dsimp only
    split_ifs with hcond
    · exact absurd hcond hsplit
    · exact nodeBounds_contains t ts

-- ## the AABB distance is a lower bound on the triangle distance

lemma baryPoint_mem_bounds (n : Aabb) (t : Tri) (hin : triInBounds n t)
    (q : Vec3) (hq : inTriangle t q) : pointInBounds n q := by
  obtain ⟨v, w, hv, hw, hvw, rfl⟩ := hq
  obtain ⟨⟨⟨ha1, ha2⟩, ⟨ha3, ha4⟩, ⟨ha5, ha6⟩⟩, ⟨⟨hb1, hb2⟩, ⟨hb3, hb4⟩, ⟨hb5, hb6⟩⟩,
    ⟨⟨hc1, hc2⟩, ⟨hc3, hc4⟩, ⟨hc5, hc6⟩⟩⟩ := hin
  have e : ∀ av bv cv lo hi : ℚ, lo ≤ av → av ≤ hi → lo ≤ bv → bv ≤ hi →
      lo ≤ cv → cv ≤ hi →
      lo ≤ av + v * (bv - av) + w * (cv - av) ∧ av + v * (bv - av) + w * (cv - av) ≤ hi := by
    intro av bv cv lo hi h1 h2 h3 h4 h5 h6
    constructor
    · nlinarith [mul_nonneg hv (sub_nonneg.2 h3), mul_nonneg hw (sub_nonneg.2 h5),
        mul_nonneg hv (sub_nonneg.2 h1), mul_nonneg hw (sub_nonneg.2 h1),
        mul_nonneg (sub_nonneg.2 hvw) (sub_nonneg.2 h1)]
    · nlinarith [mul_nonneg hv (sub_nonneg.2 h4), mul_nonneg hw (sub_nonneg.2 h6),
        mul_nonneg hv (sub_nonneg.2 h2), mul_nonneg hw (sub_nonneg.2 h2),
        mul_nonneg (sub_nonneg.2 hvw) (sub_nonneg.2 h2)]
  refine ⟨?_, ?_, ?_⟩
  · simpa [baryPoint] using e t.a.x t.b.x t.c.x n.minX n.maxX ha1 ha2 hb1 hb2 hc1 hc2
  · simpa [baryPoint] using e t.a.y t.b.y t.c.y n.minY n.maxY ha3 ha4 hb3 hb4 hc3 hc4
  · simpa [baryPoint] using e t.a.z t.b.z t.c.z n.minZ n.maxZ ha5 ha6 hb5 hb6 hc5 hc6

lemma pointToAABBDistSq_le_distSq (n : Aabb) (q : Vec3) (hq : pointInBounds n q)
    (p : Vec3) : pointToAABBDistSq p.x p.y p.z n ≤ distSq p q := by
  obtain ⟨⟨h1, h2⟩, ⟨h3, h4⟩, ⟨h5, h6⟩⟩ := hq
  unfold pointToAABBDistSq distSq normSq dot
  have key : ∀ pv qv lo hi : ℚ, lo ≤ qv → qv ≤ hi →
      (if pv < lo then lo - pv else if pv > hi then pv - hi else 0) *
        (if pv < lo then lo - pv else if pv > hi then pv - hi else 0) ≤
      (pv - qv) * (pv - qv) := by
    intro pv qv lo hi hlo hhi
    split_ifs with hl hh
    · nlinarith
    · nlinarith
    · nlinarith
  have hx := key p.x q.x n.minX n.maxX h1 h2
  have hy := key p.y q.y n.minY n.maxY h3 h4
  have hz := key p.z q.z n.minZ n.maxZ h5 h6
  simp only [sub_x, sub_y, sub_z]
  linarith

lemma pointToAABBDistSq_le_triDistSq (n : Aabb) (t : Tri) (hin : triInBounds n t)
    (hnd : Nondegenerate t) (p : Vec3) :
    pointToAABBDistSq p.x p.y p.z n ≤ pointToTriangleDistSq p t := by
  obtain ⟨⟨q, hq, heq⟩, _, _⟩ := pointToTriangleDistSq_correct p t hnd
  rw [heq]
  exact pointToAABBDistSq_le_distSq n q (baryPoint_mem_bounds n t hin q hq) p

-- ## fold lemmas for running minima

lemma foldl_min_init (f : Tri → WithTop ℚ) (l : List Tri) (b : WithTop ℚ) :
    l.foldl (fun m t => min m (f t)) b = min b (l.foldl (fun m t => min m (f t)) ⊤) := by
  induction l generalizing b with
  | nil => simp
  | cons t l ih =>
    simp only [List.foldl_cons]
    rw [ih (min b (f t)), ih (min ⊤ (f t))]
    rw [min_comm ⊤ (f t)]
    simp [min_assoc]

lemma le_foldl_min (f : Tri → WithTop ℚ) (l : List Tri) (b x : WithTop ℚ)
    (hb : x ≤ b) (hf : ∀ t ∈ l, x ≤ f t) :
    x ≤ l.foldl (fun m t => min m (f t)) b := by
  induction l generalizing b with
  | nil => exact hb
  | cons t l ih =>
    simp only [List.foldl_cons]
    exact ih (min b (f t)) (le_min hb (hf t (List.mem_cons_self t l)))
      fun u hu => hf u (List.mem_cons_of_mem t hu)

lemma foldl_if_eq_min (p : Vec3) (tris : List Tri) (b : WithTop ℚ) :
    tris.foldl (fun best t =>
        let d := pointToTriangleDistSq p t
        if (d : WithTop ℚ) < best then (d : WithTop ℚ) else best) b =
      tris.foldl (fun m t => min m ((pointToTriangleDistSq p t : ℚ) : WithTop ℚ)) b := by
  induction tris generalizing b with
  | nil => rfl
  | cons t l ih =>
    simp only [List.foldl_cons]
    have hstep : (if ((pointToTriangleDistSq p t : ℚ) : WithTop ℚ) < b
          then ((pointToTriangleDistSq p t : ℚ) : WithTop ℚ) else b) =
        min b ((pointToTriangleDistSq p t : ℚ) : WithTop ℚ) := by
      by_cases h : ((pointToTriangleDistSq p t : ℚ) : WithTop ℚ) < b
      · rw [if_pos h, min_eq_right h.le]
      · rw [if_neg h, min_eq_left (not_lt.1 h)]
    rw [hstep]
    exact ih _

-- ## branch-and-bound search returns the exact running minimum

lemma queryBVH_eq_min (n : BVH) (p : Vec3) (hWF : n.WF)
    (hnd : ∀ t ∈ n.tris, Nondegenerate t) (best : WithTop ℚ) :
    queryBVH n p.x p.y p.z best = min best (bruteMinDistSq n.tris p) := by
  induction n generalizing best with
  | leaf b tris =>
    rw [queryBVH]
    dsimp only
    split_ifs with hprune
    · have hle : best ≤ bruteMinDistSq tris p := by
        apply le_foldl_min _ _ _ _ le_top
        intro t ht
        refine le_trans hprune ?_
        rw [WithTop.coe_le_coe]
        exact pointToAABBDistSq_le_triDistSq b t (hWF t ht) (hnd t ht) p
      exact (min_eq_left hle).symm
    · rw [foldl_if_eq_min, foldl_min_init]
      rfl
  | node b left right ihl ihr =>
    obtain ⟨hWFl, hWFr, hbound⟩ := hWF
    have hndl : ∀ t ∈ left.tris, Nondegenerate t := fun t ht =>
      hnd t (List.mem_append.2 (Or.inl ht))
    have hndr : ∀ t ∈ right.tris, Nondegenerate t := fun t ht =>
      hnd t (List.mem_append.2 (Or.inr ht))
    have hmerge : bruteMinDistSq (BVH.node b left right).tris p =
        min (bruteMinDistSq left.tris p) (bruteMinDistSq right.tris p) := by
      show bruteMinDistSq (left.tris ++ right.tris) p = _
      unfold bruteMinDistSq
      rw [List.foldl_append, foldl_min_init _ right.tris]
    rw [queryBVH]
    dsimp only
    split_ifs with hprune hlr
    · have hle : best ≤ bruteMinDistSq (BVH.node b left right).tris p := by
        rw [hmerge]
        refine le_min ?_ ?_
        · apply le_foldl_min _ _ _ _ le_top
          intro t ht
          refine le_trans hprune ?_
          rw [WithTop.coe_le_coe]
          exact pointToAABBDistSq_le_triDistSq b t
            (hbound t (List.mem_append.2 (Or.inl ht))) (hndl t ht) p
        · apply le_foldl_min _ _ _ _ le_top
          intro t ht
          refine le_trans hprune ?_
          rw [WithTop.coe_le_coe]
          exact pointToAABBDistSq_le_triDistSq b t
            (hbound t (List.mem_append.2 (Or.inr ht))) (hndr t ht) p
      exact (min_eq_left hle).symm
    · rw [ihl hWFl hndl, ihr hWFr hndr, hmerge, min_assoc]
    · rw [ihr hWFr hndr, ihl hWFl hndl, hmerge, min_assoc,
        min_comm (bruteMinDistSq right.tris p)]

lemma bruteMinDistSq_perm (l₁ l₂ : List Tri) (h : l₁.Perm l₂) (p : Vec3) :
    bruteMinDistSq l₁ p = bruteMinDistSq l₂ p := by
  unfold bruteMinDistSq
  haveI : RightCommutative
      (fun (m : WithTop ℚ) (t : Tri) => min m ((pointToTriangleDistSq p t : ℚ) : WithTop ℚ)) :=
    ⟨fun m a₁ a₂ => min_right_comm m _ _⟩
  exact h.foldl_eq ⊤

lemma queryBVH_buildBVH_eq_bruteMin_aux (triangles : List Tri) (p : Vec3)
    (depth maxDepth minTris : ℕ)
    (hnd : ∀ t ∈ triangles, Nondegenerate t) :
    queryBVH (buildBVH triangles depth maxDepth minTris) p.x p.y p.z ⊤ =
      bruteMinDistSq triangles p := by
  have hperm := buildBVH_tris_perm triangles depth maxDepth minTris
  rw [queryBVH_eq_min (buildBVH triangles depth maxDepth minTris) p
    (buildBVH_WF triangles depth maxDepth minTris)
    (fun t ht => hnd t (hperm.mem_iff.1 ht)) ⊤]
  rw [min_eq_right le_top]
  exact bruteMinDistSq_perm _ _ hperm p

/-- C2: a BVH query with initial bound `Infinity` over a BVH built from a
(nonempty, non-degenerate) triangle list returns exactly the brute-force
minimum of the point-to-triangle distances (squared form). -/
theorem queryBVH_buildBVH_eq_bruteMin (triangles : List Tri) (p : Vec3)
    (depth maxDepth minTris : ℕ) (hne : triangles ≠ [])
    (hnd : ∀ t ∈ triangles, Nondegenerate t) :
    queryBVH (buildBVH triangles depth maxDepth minTris) p.x p.y p.z ⊤ =
      bruteMinDistSq triangles p :=
  queryBVH_buildBVH_eq_bruteMin_aux triangles p depth maxDepth minTris hnd

theorem queryBVH_buildBVH_eq_bruteMin_witness :
    ([⟨⟨0, 0, 0⟩, ⟨1, 0, 0⟩, ⟨0, 1, 0⟩⟩] : List Tri) ≠ [] ∧
      (∀ t ∈ ([⟨⟨0, 0, 0⟩, ⟨1, 0, 0⟩, ⟨0, 1, 0⟩⟩] : List Tri), Nondegenerate t) ∧
      queryBVH (buildBVH [⟨⟨0, 0, 0⟩, ⟨1, 0, 0⟩, ⟨0, 1, 0⟩⟩] 0 12 4)
          (Vec3.mk 2 3 4).x (Vec3.mk 2 3 4).y (Vec3.mk 2 3 4).z ⊤ =
        bruteMinDistSq [⟨⟨0, 0, 0⟩, ⟨1, 0, 0⟩, ⟨0, 1, 0⟩⟩] ⟨2, 3, 4⟩ := by
  have hne : ([⟨⟨0, 0, 0⟩, ⟨1, 0, 0⟩, ⟨0, 1, 0⟩⟩] : List Tri) ≠ [] := by
    intro h
    exact List.cons_ne_nil _ _ h
  have hnd : ∀ t ∈ ([⟨⟨0, 0, 0⟩, ⟨1, 0, 0⟩, ⟨0, 1, 0⟩⟩] : List Tri), Nondegenerate t := by
    intro t ht
    rw [List.mem_singleton] at ht
    subst ht
    unfold Nondegenerate
    with_unfolding_all decide
  exact ⟨hne, hnd, queryBVH_buildBVH_eq_bruteMin _ ⟨2, 3, 4⟩ 0 12 4 hne hnd⟩


-- ## flat-index bookkeeping

lemma flatMap_length_const {α : Type} (L : ℕ) (f : ℕ → List α)
    (hL : ∀ i, (f i).length = L) (l : List ℕ) :
    (l.flatMap f).length = l.length * L := by
  induction l with
  | nil => simp
  | cons i l ih =>
    simp only [List.flatMap_cons, List.length_append, ih, hL i, List.length_cons]
    ring

lemma flatMap_range_getElem {α : Type} (n L : ℕ) (f : ℕ → List α)
    (hL : ∀ i, (f i).length = L) (i j : ℕ) (hi : i < n) (hj : j < L) :
    ((List.range n).flatMap f)[i * L + j]? = (f i)[j]? := by
  induction n with
  | zero => omega
  | succ n ih =>
    rw [List.range_succ, List.flatMap_append, List.getElem?_append]
    rw [flatMap_length_const L f hL, List.length_range]
    rcases Nat.lt_or_ge i n with h | h
    · rw [if_pos]
      · exact ih h
      · calc i * L + j < i * L + L := by omega
          _ = (i + 1) * L := by ring
          _ ≤ n * L := Nat.mul_le_mul_right L (by omega)
    · have hi' : i = n := by omega
      subst hi'
      rw [if_neg (by omega : ¬(i * L + j < i * L))]
      simp only [List.flatMap_cons, List.flatMap_nil, List.append_nil]
      congr 1
      omega

lemma foldl_min_le_init (f : Tri → WithTop ℚ) (l : List Tri) (b : WithTop ℚ) :
    l.foldl (fun m t => min m (f t)) b ≤ b := by
  induction l generalizing b with
  | nil => exact le_refl b
  | cons t l ih => exact le_trans (ih (min b (f t))) (min_le_left _ _)

lemma pointToTriangleDistSq_nonneg (p : Vec3) (t : Tri) :
    0 ≤ pointToTriangleDistSq p t := by
  unfold pointToTriangleDistSq
  dsimp only
  split_ifs <;> exact normSq_nonneg _

lemma bruteMinDistSq_nonneg (triangles : List Tri) (p : Vec3) :
    0 ≤ bruteMinDistSq triangles p := by
  apply le_foldl_min _ _ _ _ le_top
  intro t ht
  exact_mod_cast pointToTriangleDistSq_nonneg p t

lemma bruteMinDistSq_lt_top (t : Tri) (ts : List Tri) (p : Vec3) :
    bruteMinDistSq (t :: ts) p < ⊤ := by
  unfold bruteMinDistSq
  rw [List.foldl_cons]
  refine lt_of_le_of_lt (foldl_min_le_init _ ts _) ?_
  exact lt_of_le_of_lt (min_le_right _ _) (WithTop.coe_lt_top _)

lemma flat3_getElem {α : Type} (R : ℕ) (F : ℕ → ℕ → ℕ → α) (x y z : ℕ)
    (hx : x < R) (hy : y < R) (hz : z < R) :
    ((List.range R).flatMap fun zz => (List.range R).flatMap fun yy =>
      (List.range R).map fun xx => F xx yy zz)[x + y * R + z * (R * R)]? =
      some (F x y z) := by
  have hinner : ∀ zz yy : ℕ, ((List.range R).map fun xx => F xx yy zz).length = R := by
    intro zz yy
    rw [List.length_map, List.length_range]
  have hmid : ∀ zz : ℕ, ((List.range R).flatMap fun yy =>
      (List.range R).map fun xx => F xx yy zz).length = R * R := by
    intro zz
    rw [flatMap_length_const (R) _ (hinner zz), List.length_range]
  have hj : y * R + x < R * R := by nlinarith
  have hidx : x + y * R + z * (R * R) = z * (R * R) + (y * R + x) := by ring
  rw [hidx, flatMap_range_getElem R (R * R) _ hmid z (y * R + x) hz hj]
  try dsimp only
  rw [flatMap_range_getElem R R _ (hinner z) y x hy hx]
  try dsimp only
  rw [List.getElem?_map, List.getElem?_range hx]
  rfl

/-- C3: the sequential generator produces steps `(max-min)/R` per axis and a
flat array whose entry at index `x + y*R + z*R²` is the minimum over all
triangles of the (squared) point-to-triangle distance at the voxel center
`min + (i+0.5)*step`; for a nonempty triangle list every entry is finite and
nonnegative. -/
theorem generateSDF_spec (triangles : List Tri) (bbox : Bbox) (resolution : ℕ)
    (x y z : ℕ) (hx : x < resolution) (hy : y < resolution) (hz : z < resolution) :
    (generateSDF triangles bbox resolution).stepX = (bbox.max.x - bbox.min.x) / resolution ∧
    (generateSDF triangles bbox resolution).stepY = (bbox.max.y - bbox.min.y) / resolution ∧
    (generateSDF triangles bbox resolution).stepZ = (bbox.max.z - bbox.min.z) / resolution ∧
    (generateSDF triangles bbox resolution).data[x + y * resolution +
        z * resolution * resolution]? =
      some (bruteMinDistSq triangles
        ⟨bbox.min.x + ((x : ℚ) + 0.5) * ((bbox.max.x - bbox.min.x) / resolution),
         bbox.min.y + ((y : ℚ) + 0.5) * ((bbox.max.y - bbox.min.y) / resolution),
         bbox.min.z + ((z : ℚ) + 0.5) * ((bbox.max.z - bbox.min.z) / resolution)⟩) ∧
    (triangles ≠ [] →
      ∀ v ∈ (generateSDF triangles bbox resolution).data, v ≠ ⊤ ∧ 0 ≤ v) := by
  refine ⟨rfl, rfl, rfl, ?_, ?_⟩
  · have hidx2 : x + y * resolution + z * resolution * resolution =
        x + y * resolution + z * (resolution * resolution) := by ring
    rw [hidx2]
    have hdata : (generateSDF triangles bbox resolution).data =
        (List.range resolution).flatMap fun zz =>
          (List.range resolution).flatMap fun yy =>
            (List.range resolution).map fun xx : ℕ =>
              bruteMinDistSq triangles
                ⟨bbox.min.x + ((xx : ℚ) + 0.5) * ((bbox.max.x - bbox.min.x) / resolution),
                 bbox.min.y + ((yy : ℚ) + 0.5) * ((bbox.max.y - bbox.min.y) / resolution),
                 bbox.min.z + ((zz : ℚ) + 0.5) * ((bbox.max.z - bbox.min.z) / resolution)⟩ := rfl
    rw [hdata]
    exact flat3_getElem resolution
      (fun xx yy zz => bruteMinDistSq triangles
        ⟨bbox.min.x + ((xx : ℚ) + 0.5) * ((bbox.max.x - bbox.min.x) / resolution),
         bbox.min.y + ((yy : ℚ) + 0.5) * ((bbox.max.y - bbox.min.y) / resolution),
         bbox.min.z + ((zz : ℚ) + 0.5) * ((bbox.max.z - bbox.min.z) / resolution)⟩)
      x y z hx hy hz
  · intro hne v hv
    have hq : ∃ q : Vec3, v = bruteMinDistSq triangles q := by
      simp only [generateSDF, List.mem_flatMap, List.mem_map] at hv
      obtain ⟨zz, _, yy, _, xx, _, rfl⟩ := hv
      exact ⟨_, rfl⟩
    obtain ⟨q, rfl⟩ := hq
    obtain ⟨t, ts, rfl⟩ := List.exists_cons_of_ne_nil hne
    exact ⟨ne_of_lt (bruteMinDistSq_lt_top t ts q), bruteMinDistSq_nonneg _ q⟩

lemma blocks_join (S R : ℕ) : ∀ nw : ℕ,
    (List.range nw).flatMap (fun i => List.range' (i * S) (min (i * S + S) R - i * S)) =
      List.range (min (nw * S) R) := by
  intro nw
  induction nw with
  | zero => simp
  | succ nw ih =>
    rw [List.range_succ, List.flatMap_append, ih, List.flatMap_cons, List.flatMap_nil,
      List.append_nil]
    by_cases hR : R ≤ nw * S
    · have h1 : min (nw * S) R = R := min_eq_right hR
      have h2 : min (nw * S + S) R - nw * S = 0 := by omega
      have h3 : min ((nw + 1) * S) R = R := by
        rw [Nat.succ_mul]
        omega
      rw [h1, h2, h3, List.range'_zero, List.append_nil]
    · push_neg at hR
      have h1 : min (nw * S) R = nw * S := min_eq_left (le_of_lt hR)
      rw [h1, List.range_eq_range', List.range_eq_range']
      have h4 : min ((nw + 1) * S) R = nw * S + (min (nw * S + S) R - nw * S) := by
        rw [Nat.succ_mul]
        omega
      rw [h4]
      have h5 := List.range'_append 0 (nw * S) (min (nw * S + S) R - nw * S) 1
      simpa [Nat.add_comm] using h5

lemma ceil_mul_ge (R nw : ℕ) (hnw : 0 < nw) : R ≤ nw * slicesPerWorker R nw := by
  unfold slicesPerWorker
  have h1 := Nat.div_add_mod (R + nw - 1) nw
  have h2 := Nat.mod_lt (R + nw - 1) hnw
  omega

lemma flatMap_flatMap {α : Type} (l : List ℕ) (f : ℕ → List ℕ) (g : ℕ → List α) :
    (l.flatMap fun i => (f i).flatMap g) = (l.flatMap f).flatMap g := by
  induction l with
  | nil => rfl
  | cons a l ih => simp [List.flatMap_cons, List.flatMap_append, ih]

/-- C4: with at least one worker and a non-degenerate triangle list, slicing
the Z range across workers (each filling its slab via a BVH query over the
full triangle set) and concatenating the slabs reproduces the sequential
brute-force field exactly: same data array, same size, same steps. -/
theorem generateSDFParallel_eq_generateSDF (triangles : List Tri) (bbox : Bbox)
    (resolution numWorkers : ℕ) (hnw : 0 < numWorkers)
    (hnd : ∀ t ∈ triangles, Nondegenerate t) :
    generateSDFParallel triangles bbox resolution numWorkers =
      generateSDF triangles bbox resolution := by
  have hq : ∀ cx cy cz : ℚ, queryBVH (buildBVH triangles 0 12 4) cx cy cz ⊤ =
      bruteMinDistSq triangles ⟨cx, cy, cz⟩ :=
    fun cx cy cz => queryBVH_buildBVH_eq_bruteMin_aux triangles ⟨cx, cy, cz⟩ 0 12 4 hnd
  have hR := ceil_mul_ge resolution numWorkers hnw
  unfold generateSDFParallel generateSDF workerSliceData
  dsimp only
  simp only [hq]
  rw [flatMap_flatMap, blocks_join, min_eq_right hR]

theorem generateSDF_spec_witness :
    ((0 : ℕ) < 1 ∧ (0 : ℕ) < 1 ∧ (0 : ℕ) < 1) ∧
    ((generateSDF ([⟨⟨0,0,0⟩,⟨1,0,0⟩,⟨0,1,0⟩⟩] : List Tri) (⟨⟨0,0,0⟩,⟨1,1,1⟩⟩ : Bbox) 1).stepX =
        ((⟨⟨0,0,0⟩,⟨1,1,1⟩⟩ : Bbox).max.x - (⟨⟨0,0,0⟩,⟨1,1,1⟩⟩ : Bbox).min.x) / ((1 : ℕ) : ℚ) ∧
     (generateSDF ([⟨⟨0,0,0⟩,⟨1,0,0⟩,⟨0,1,0⟩⟩] : List Tri) (⟨⟨0,0,0⟩,⟨1,1,1⟩⟩ : Bbox) 1).stepY =
        ((⟨⟨0,0,0⟩,⟨1,1,1⟩⟩ : Bbox).max.y - (⟨⟨0,0,0⟩,⟨1,1,1⟩⟩ : Bbox).min.y) / ((1 : ℕ) : ℚ) ∧
     (generateSDF ([⟨⟨0,0,0⟩,⟨1,0,0⟩,⟨0,1,0⟩⟩] : List Tri) (⟨⟨0,0,0⟩,⟨1,1,1⟩⟩ : Bbox) 1).stepZ =
        ((⟨⟨0,0,0⟩,⟨1,1,1⟩⟩ : Bbox).max.z - (⟨⟨0,0,0⟩,⟨1,1,1⟩⟩ : Bbox).min.z) / ((1 : ℕ) : ℚ) ∧
     (generateSDF ([⟨⟨0,0,0⟩,⟨1,0,0⟩,⟨0,1,0⟩⟩] : List Tri) (⟨⟨0,0,0⟩,⟨1,1,1⟩⟩ : Bbox)
        1).data[0 + 0 * 1 + 0 * 1 * 1]? =
       some (bruteMinDistSq ([⟨⟨0,0,0⟩,⟨1,0,0⟩,⟨0,1,0⟩⟩] : List Tri)
         ⟨(⟨⟨0,0,0⟩,⟨1,1,1⟩⟩ : Bbox).min.x + (((0 : ℕ) : ℚ) + 0.5) *
            (((⟨⟨0,0,0⟩,⟨1,1,1⟩⟩ : Bbox).max.x - (⟨⟨0,0,0⟩,⟨1,1,1⟩⟩ : Bbox).min.x) / ((1 : ℕ) : ℚ)),
          (⟨⟨0,0,0⟩,⟨1,1,1⟩⟩ : Bbox).min.y + (((0 : ℕ) : ℚ) + 0.5) *
            (((⟨⟨0,0,0⟩,⟨1,1,1⟩⟩ : Bbox).max.y - (⟨⟨0,0,0⟩,⟨1,1,1⟩⟩ : Bbox).min.y) / ((1 : ℕ) : ℚ)),
          (⟨⟨0,0,0⟩,⟨1,1,1⟩⟩ : Bbox).min.z + (((0 : ℕ) : ℚ) + 0.5) *
            (((⟨⟨0,0,0⟩,⟨1,1,1⟩⟩ : Bbox).max.z - (⟨⟨0,0,0⟩,⟨1,1,1⟩⟩ : Bbox).min.z) / ((1 : ℕ) : ℚ))⟩) ∧
     (([⟨⟨0,0,0⟩,⟨1,0,0⟩,⟨0,1,0⟩⟩] : List Tri) ≠ [] →
       ∀ v ∈ (generateSDF ([⟨⟨0,0,0⟩,⟨1,0,0⟩,⟨0,1,0⟩⟩] : List Tri)
         (⟨⟨0,0,0⟩,⟨1,1,1⟩⟩ : Bbox) 1).data, v ≠ ⊤ ∧ 0 ≤ v)) :=
  ⟨⟨by decide, by decide, by decide⟩,
   generateSDF_spec [⟨⟨0,0,0⟩,⟨1,0,0⟩,⟨0,1,0⟩⟩] ⟨⟨0,0,0⟩,⟨1,1,1⟩⟩ 1 0 0 0
     (by decide) (by decide) (by decide)⟩

theorem generateSDFParallel_eq_generateSDF_witness :
    (0 < 2) ∧ (∀ t ∈ ([⟨⟨0,0,0⟩,⟨1,0,0⟩,⟨0,1,0⟩⟩] : List Tri), Nondegenerate t) ∧
    generateSDFParallel ([⟨⟨0,0,0⟩,⟨1,0,0⟩,⟨0,1,0⟩⟩] : List Tri) (⟨⟨0,0,0⟩,⟨1,1,1⟩⟩ : Bbox) 1 2 =
      generateSDF ([⟨⟨0,0,0⟩,⟨1,0,0⟩,⟨0,1,0⟩⟩] : List Tri) (⟨⟨0,0,0⟩,⟨1,1,1⟩⟩ : Bbox) 1 := by
  have hnd : ∀ t ∈ ([⟨⟨0,0,0⟩,⟨1,0,0⟩,⟨0,1,0⟩⟩] : List Tri), Nondegenerate t := by
    intro t ht
    rw [List.mem_singleton] at ht
    subst ht
    unfold Nondegenerate
    with_unfolding_all decide
  exact ⟨by decide, hnd,
    generateSDFParallel_eq_generateSDF [⟨⟨0,0,0⟩,⟨1,0,0⟩,⟨0,1,0⟩⟩] ⟨⟨0,0,0⟩,⟨1,1,1⟩⟩ 1 2
      (by decide) hnd⟩

-- ## Grid predicates for the sampler (C10)

-- ## C5: one-step state transitions

/-- C5: in one update step (both the main-thread updater and the physics
worker), a `FALLING` particle can only end `FALLING`, `STUCK`, `BOUNCING`
or `INACTIVE` — never `DRIPPING` or `SLIDING`; and a particle ends
`DRIPPING` only if it started `STUCK`, `SLIDING` or `DRIPPING`. -/
theorem falling_transitions (o : Oracle) (sdf : Option SdfData) (dt time : ℚ)
    (p : Particle) :
    (p.state = PState.FALLING →
      ((updateParticle o sdf dt time p).state = PState.FALLING ∨
       (updateParticle o sdf dt time p).state = PState.STUCK ∨
       (updateParticle o sdf dt time p).state = PState.BOUNCING ∨
       (updateParticle o sdf dt time p).state = PState.INACTIVE) ∧
      ((processParticle o sdf dt time p).state = PState.FALLING ∨
       (processParticle o sdf dt time p).state = PState.STUCK ∨
       (processParticle o sdf dt time p).state = PState.BOUNCING ∨
       (processParticle o sdf dt time p).state = PState.INACTIVE)) ∧
    ((updateParticle o sdf dt time p).state = PState.DRIPPING →
      p.state = PState.STUCK ∨ p.state = PState.SLIDING ∨ p.state = PState.DRIPPING) ∧
    ((processParticle o sdf dt time p).state = PState.DRIPPING →
      p.state = PState.STUCK ∨ p.state = PState.SLIDING ∨ p.state = PState.DRIPPING) := by
  refine ⟨fun hf => ?_, fun hd => ?_, fun hd => ?_⟩
  · constructor
    · simp only [updateParticle, hf]
      try dsimp only
      split_ifs <;> simp
    · simp only [processParticle, hf]
      try dsimp only
      split_ifs <;> simp
  · cases hs : p.state
    · simp only [updateParticle, hs] at hd
      try dsimp only at hd
      split_ifs at hd
    · simp
    · simp
    · simp
    · simp only [updateParticle, hs] at hd
      simp at hd
    · simp only [updateParticle, hs] at hd
      try dsimp only at hd
      split_ifs at hd
  · cases hs : p.state
    · simp only [processParticle, hs] at hd
      try dsimp only at hd
      split_ifs at hd
    · simp
    · simp
    · simp
    · simp only [processParticle, hs] at hd
      simp at hd
    · simp only [processParticle, hs] at hd
      try dsimp only at hd
      split_ifs at hd

theorem falling_transitions_witness :
    pEx.state = PState.FALLING ∧
    ((updateParticle oEx none 1 0 pEx).state = PState.FALLING ∨
     (updateParticle oEx none 1 0 pEx).state = PState.STUCK ∨
     (updateParticle oEx none 1 0 pEx).state = PState.BOUNCING ∨
     (updateParticle oEx none 1 0 pEx).state = PState.INACTIVE) ∧
    (updateParticle oEx none 1 0 pDr).state = PState.DRIPPING ∧
    (pDr.state = PState.STUCK ∨ pDr.state = PState.SLIDING ∨
     pDr.state = PState.DRIPPING) := by
  refine ⟨rfl, ((falling_transitions oEx none 1 0 pEx).1 rfl).1, ?_, ?_⟩
  · with_unfolding_all decide
  · exact (falling_transitions oEx none 1 0 pDr).2.1 (by with_unfolding_all decide)

-- ## C6: INACTIVE slots

lemma updateParticle_skip (o : Oracle) (sdf : Option SdfData) (dt time : ℚ)
    (p : Particle) (h : p.state = PState.INACTIVE) :
    updateParticle o sdf dt time p = p := by
  simp only [updateParticle, h]

lemma updateParticle_size_inv (o : Oracle) (sdf : Option SdfData) (dt time : ℚ)
    (p : Particle) (h : p.state = PState.INACTIVE → p.size = 0) :
    (updateParticle o sdf dt time p).state = PState.INACTIVE →
      (updateParticle o sdf dt time p).size = 0 := by
  cases hs : p.state
  case INACTIVE =>
    rw [updateParticle_skip o sdf dt time p hs]
    intro _
    exact h hs
  all_goals
    simp only [updateParticle, hs]
    try dsimp only
    split_ifs <;> simp

lemma runUpdate_sizeInv (os : ℕ → Oracle) (sdf : Option SdfData) (dt time : ℚ)
    (i : ℕ) (ps : List Particle) (h : SizeInv ps) :
    SizeInv (runUpdate os sdf dt time i ps).1 := by
  induction ps generalizing i with
  | nil =>
    intro q hq
    simp [runUpdate] at hq
  | cons p ps ih =>
    intro q hq
    simp only [runUpdate] at hq
    split_ifs at hq with hp
    · rcases List.mem_cons.1 hq with rfl | hq'
      · exact h q (List.mem_cons_self _ _)
      · exact ih (i + 1) (fun r hr => h r (List.mem_cons_of_mem _ hr)) q hq'
    · rcases List.mem_cons.1 hq with rfl | hq'
      · exact updateParticle_size_inv _ _ _ _ _ (h p (List.mem_cons_self _ _))
      · exact ih (i + 1) (fun r hr => h r (List.mem_cons_of_mem _ hr)) q hq'

lemma runUpdate_skip (os : ℕ → Oracle) (sdf : Option SdfData) (dt time : ℚ)
    (i : ℕ) (ps : List Particle) (j : ℕ) (hj : j < ps.length)
    (h : (ps.get ⟨j, hj⟩).state = PState.INACTIVE) :
    (runUpdate os sdf dt time i ps).1[j]? = some (ps.get ⟨j, hj⟩) := by
  induction ps generalizing i j with
  | nil => exact absurd hj (by simp)
  | cons p ps ih =>
    match j with
    | 0 =>
      simp only [List.get] at h
      simp only [runUpdate, if_pos h]
      simp
    | j + 1 =>
      simp only [List.get] at h
      simp only [runUpdate]
      split_ifs with hp
      · simpa using ih (i + 1) j (by simpa using hj) h
      · simpa using ih (i + 1) j (by simpa using hj) h

lemma runUpdate_count (os : ℕ → Oracle) (sdf : Option SdfData) (dt time : ℚ)
    (i : ℕ) (ps : List Particle) :
    (runUpdate os sdf dt time i ps).2 =
      (ps.filter fun p => p.state ≠ PState.INACTIVE).length := by
  induction ps generalizing i with
  | nil => rfl
  | cons p ps ih =>
    by_cases hp : p.state = PState.INACTIVE
    · simp only [runUpdate, if_pos hp]
      rw [List.filter_cons_of_neg (by simp [hp])]
      exact ih (i + 1)
    · simp only [runUpdate, if_neg hp]
      rw [List.filter_cons_of_pos (by simp [hp])]
      simp [ih (i + 1)]

lemma spawnLoop_sizeInv (maxParticles : ℕ) (ps : List Particle)
    (reqs : List SpawnItem) (h : SizeInv ps) :
    SizeInv (spawnLoop maxParticles ps reqs) := by
  induction reqs generalizing ps with
  | nil => exact h
  | cons r rs ih =>
    rw [spawnLoop]
    split_ifs with hlt
    · refine ih _ (fun q hq => ?_)
      rcases List.mem_append.1 hq with hq' | hq'
      · exact h q hq'
      · intro hI
        rw [List.mem_singleton] at hq'
        subst hq'
        simp [mkFalling] at hI
    · exact h

/-- C6: every operation preserves "an INACTIVE slot below the high-water
mark has size 0"; the update pass leaves INACTIVE slots untouched and its
returned active count counts exactly the non-INACTIVE slots. -/
theorem inactive_slots (os : ℕ → Oracle) (sdf : Option SdfData) (dt time : ℚ)
    (maxParticles : ℕ) (ps : List Particle) (reqs : List SpawnItem)
    (hInv : SizeInv ps) :
    SizeInv (spawn maxParticles ps reqs).1 ∧
    SizeInv (runUpdate os sdf dt time 0 ps).1 ∧
    SizeInv (resetSys ps) ∧
    (∀ j (hj : j < ps.length), (ps.get ⟨j, hj⟩).state = PState.INACTIVE →
      (runUpdate os sdf dt time 0 ps).1[j]? = some (ps.get ⟨j, hj⟩)) ∧
    (runUpdate os sdf dt time 0 ps).2 =
      (ps.filter fun p => p.state ≠ PState.INACTIVE).length := by
  refine ⟨spawnLoop_sizeInv _ _ _ hInv, runUpdate_sizeInv _ _ _ _ _ _ hInv, ?_, ?_, ?_⟩
  · intro q hq
    simp [resetSys] at hq
  · intro j hj h
    exact runUpdate_skip os sdf dt time 0 ps j hj h
  · exact runUpdate_count os sdf dt time 0 ps

theorem inactive_slots_witness :
    SizeInv [pIn, pEx] ∧
    (SizeInv (spawn 2 [pIn, pEx] []).1 ∧
     SizeInv (runUpdate (fun _ => oEx) none 1 0 0 [pIn, pEx]).1 ∧
     SizeInv (resetSys [pIn, pEx]) ∧
     (∀ j (hj : j < ([pIn, pEx] : List Particle).length),
       (([pIn, pEx] : List Particle).get ⟨j, hj⟩).state = PState.INACTIVE →
       (runUpdate (fun _ => oEx) none 1 0 0 [pIn, pEx]).1[j]? =
         some (([pIn, pEx] : List Particle).get ⟨j, hj⟩)) ∧
     (runUpdate (fun _ => oEx) none 1 0 0 [pIn, pEx]).2 =
       (([pIn, pEx] : List Particle).filter
         fun p => p.state ≠ PState.INACTIVE).length) :=
  ⟨by unfold SizeInv; with_unfolding_all decide,
   inactive_slots (fun _ => oEx) none 1 0 2 [pIn, pEx] []
     (by unfold SizeInv; with_unfolding_all decide)⟩

-- ## C7: the spawn contract

lemma spawnLoop_spec (maxParticles : ℕ) (ps : List Particle)
    (reqs : List SpawnItem) :
    spawnLoop maxParticles ps reqs =
      ps ++ (reqs.take (maxParticles - ps.length)).map mkFalling := by
  induction reqs generalizing ps with
  | nil => simp [spawnLoop]
  | cons r rs ih =>
    rw [spawnLoop]
    split_ifs with hlt
    · rw [ih (ps ++ [mkFalling r])]
      have hlen : maxParticles - ps.length = (maxParticles - (ps ++ [mkFalling r]).length) + 1 := by
        simp only [List.length_append, List.length_singleton]
        omega
      rw [hlen, List.take_succ_cons, List.map_cons, List.append_assoc]
      rfl
    · have h0 : maxParticles - ps.length = 0 := by omega
      simp [h0]

/-- C7 (amended): `spawn` admits exactly `min(n, max - count)` particles,
appending them in request order with state `FALLING` and stick timer `0`
and leaving the existing slots unchanged; an overflowing request is
silently truncated.  However, the method body has no `return` statement:
the call evaluates to `undefined` (`none`) and does NOT return the number
admitted. -/
theorem spawn_spec (maxParticles : ℕ) (ps : List Particle)
    (reqs : List SpawnItem) :
    (spawn maxParticles ps reqs).1 =
      ps ++ (reqs.take (maxParticles - ps.length)).map mkFalling ∧
    (spawn maxParticles ps reqs).1.length =
      ps.length + min reqs.length (maxParticles - ps.length) ∧
    (∀ j (hj : j < ps.length),
      (spawn maxParticles ps reqs).1[j]? = some (ps.get ⟨j, hj⟩)) ∧
    (∀ r : SpawnItem, (mkFalling r).state = PState.FALLING ∧
      (mkFalling r).stickTime = 0) ∧
    (spawn maxParticles ps reqs).2 = none := by
  refine ⟨spawnLoop_spec _ _ _, ?_, ?_, fun r => ⟨rfl, rfl⟩, rfl⟩
  · show (spawnLoop maxParticles ps reqs).length = _
    rw [spawnLoop_spec, List.length_append, List.length_map, List.length_take]
    omega
  · intro j hj
    show (spawnLoop maxParticles ps reqs)[j]? = _
    rw [spawnLoop_spec, List.getElem?_append, if_pos hj, List.getElem?_eq_getElem hj]
    rfl

/-- C7 counterexample: a request of one particle on an empty store of
capacity 1 admits one particle, yet the call returns `undefined` (`none`),
not the admitted count `1` that the claim promises. -/
theorem spawn_no_return :
    (spawn 1 [] [⟨0, 0, 0, 0, 0, 0, 1, 0⟩]).1.length = 1 ∧
    (spawn 1 [] [⟨0, 0, 0, 0, 0, 0, 1, 0⟩]).2 = none ∧
    (spawn 1 [] [⟨0, 0, 0, 0, 0, 0, 1, 0⟩]).2 ≠
      some (min 1 (1 - ([] : List Particle).length)) := by
  with_unfolding_all decide

-- ## C9: removal of particles spawned below the removal line

lemma lerp_nonneg (a b t : ℚ) (ha : 0 ≤ a) (hb : 0 ≤ b) (h0 : 0 ≤ t) (h1 : t ≤ 1) :
    0 ≤ a * (1 - t) + b * t := by nlinarith

lemma sampleSDF_nonneg (sdf : Option SdfData) (x y z : ℚ)
    (h : ∀ s, sdf = some s → ∀ i : ℤ, 0 ≤ s.data i) :
    0 ≤ sampleSDF sdf x y z := by
  match sdf with
  | none =>
    show (0 : ℚ) ≤ 100
    norm_num
  | some s =>
    have hd := h s rfl
    simp only [sampleSDF]
    split_ifs with hout
    · norm_num
    · have hfr : ∀ w : ℚ, 0 ≤ w - (⌊w⌋ : ℚ) ∧ w - (⌊w⌋ : ℚ) ≤ 1 := fun w =>
        ⟨sub_nonneg.2 (Int.floor_le w), by nlinarith [Int.lt_floor_add_one w]⟩
      refine lerp_nonneg _ _ _ ?_ ?_ (hfr _).1 (hfr _).2 <;>
        refine lerp_nonneg _ _ _ ?_ ?_ (hfr _).1 (hfr _).2 <;>
        exact lerp_nonneg _ _ _ (hd _) (hd _) (hfr _).1 (hfr _).2

lemma abs_div_sqrt_le (o : Oracle) (dx dy dz : ℚ)
    (hs : ∀ q c : ℚ, q ^ 2 ≤ c → q ≤ o.sqrt c) :
    |dy / (if o.sqrt (dx * dx + dy * dy + dz * dz) = 0 then 1
           else o.sqrt (dx * dx + dy * dy + dz * dz))| ≤ 1 := by
  have hc : dy ^ 2 ≤ dx * dx + dy * dy + dz * dz := by nlinarith [sq_nonneg dx, sq_nonneg dz]
  have h0 : 0 ≤ o.sqrt (dx * dx + dy * dy + dz * dz) :=
    hs 0 _ (by nlinarith [sq_nonneg dx, sq_nonneg dy, sq_nonneg dz])
  have hu : dy ≤ o.sqrt (dx * dx + dy * dy + dz * dz) := hs dy _ hc
  have hu' : -dy ≤ o.sqrt (dx * dx + dy * dy + dz * dz) := hs (-dy) _ (by rw [neg_sq]; exact hc)
  by_cases hz : o.sqrt (dx * dx + dy * dy + dz * dz) = 0
  · rw [if_pos hz, div_one]
    rw [hz] at hu hu'
    have : dy = 0 := le_antisymm hu (by linarith)
    simp [this]
  · rw [if_neg hz]
    have hpos : 0 < o.sqrt (dx * dx + dy * dy + dz * dz) := lt_of_le_of_ne h0 (Ne.symm hz)
    rw [abs_div, abs_of_pos hpos, div_le_one hpos]
    exact abs_le.2 ⟨by linarith, hu⟩

lemma sdfGradient_y_le (o : Oracle) (sdf : Option SdfData) (x y z : ℚ)
    (hs : ∀ q c : ℚ, q ^ 2 ≤ c → q ≤ o.sqrt c) :
    |(sdfGradient o sdf x y z).y| ≤ 1 := by
  unfold sdfGradient
  dsimp only
  exact abs_div_sqrt_le o _ _ _ hs

/-- C9 (amended): a `FALLING` particle more than `0.2` below
`DRIP_REMOVE_Y`, falling (not moving upward), over a field with
nonnegative stored distances and any square-root oracle satisfying
`q² ≤ c → q ≤ sqrt c`, is set `INACTIVE` with size 0 by its first update.
(The margin `0.2` absorbs the largest possible surface push
`|0.15 - dist| < 0.2`; the original claim is false for arbitrary spawn
velocities, see the counterexample.) -/
theorem spawn_below_removed (o : Oracle) (sdf : Option SdfData) (dt time : ℚ)
    (p : Particle) (hstate : p.state = PState.FALLING)
    (hvel : p.velY ≤ 0) (hpos : p.posY < DRIP_REMOVE_Y - 1/5) (hdt : 0 ≤ dt)
    (hdata : ∀ s, sdf = some s → ∀ i : ℤ, 0 ≤ s.data i)
    (hs : ∀ q c : ℚ, q ^ 2 ≤ c → q ≤ o.sqrt c) :
    (updateParticle o sdf dt time p).state = PState.INACTIVE ∧
    (updateParticle o sdf dt time p).size = 0 := by
  simp only [updateParticle, hstate]
  set X1 := p.posX + p.velX * dt with hX1d
  set Y1 := p.posY + (p.velY + DRIP_GRAVITY * dt) * dt with hY1d
  set Z1 := p.posZ + p.velZ * dt with hZ1d
  set D := sampleSDF sdf X1 Y1 Z1 with hDd
  have hD0 : 0 ≤ D := sampleSDF_nonneg sdf X1 Y1 Z1 hdata
  have hNY : |(sdfGradient o sdf X1 Y1 Z1).y| ≤ 1 := sdfGradient_y_le o sdf X1 Y1 Z1 hs
  have hvel1 : p.velY + DRIP_GRAVITY * dt ≤ 0 := by
    simp only [DRIP_GRAVITY]
    nlinarith
  have hprod : (p.velY + DRIP_GRAVITY * dt) * dt ≤ 0 :=
    mul_nonpos_iff.2 (Or.inr ⟨hvel1, hdt⟩)
  have hY1 : Y1 < -101/5 := by
    simp only [DRIP_REMOVE_Y] at hpos
    rw [hY1d]
    linarith
  try dsimp only
  split_ifs with h1 h2 h3 h4 h5
  · exact ⟨rfl, rfl⟩
  · exfalso
    have hub : (sdfGradient o sdf X1 Y1 Z1).y * (3/20 - D) < 1/5 := by
      have habs : |(sdfGradient o sdf X1 Y1 Z1).y * (3/20 - D)| < 1/5 := by
        rw [abs_mul]
        have h1' : |3/20 - D| < 1/5 := abs_lt.2 ⟨by linarith, by linarith⟩
        calc |(sdfGradient o sdf X1 Y1 Z1).y| * |3/20 - D| ≤ 1 * |3/20 - D| :=
              mul_le_mul_of_nonneg_right hNY (abs_nonneg _)
          _ = |3/20 - D| := one_mul _
          _ < 1/5 := h1'
      exact lt_of_le_of_lt (le_abs_self _) habs
    exact h3 (Or.inl (by simp only [DRIP_REMOVE_Y]; linarith))
  · exact ⟨rfl, rfl⟩
  · exfalso
    have hub : (sdfGradient o sdf X1 Y1 Z1).y * (3/20 - D) < 1/5 := by
      have habs : |(sdfGradient o sdf X1 Y1 Z1).y * (3/20 - D)| < 1/5 := by
        rw [abs_mul]
        have h1' : |3/20 - D| < 1/5 := abs_lt.2 ⟨by linarith, by linarith⟩
        calc |(sdfGradient o sdf X1 Y1 Z1).y| * |3/20 - D| ≤ 1 * |3/20 - D| :=
              mul_le_mul_of_nonneg_right hNY (abs_nonneg _)
          _ = |3/20 - D| := one_mul _
          _ < 1/5 := h1'
      exact lt_of_le_of_lt (le_abs_self _) habs
    exact h4 (Or.inl (by simp only [DRIP_REMOVE_Y]; linarith))
  · exact ⟨rfl, rfl⟩
  · exact absurd (Or.inl (by simp only [DRIP_REMOVE_Y]; linarith)) h5

theorem spawn_below_removed_witness :
    (pCx2.state = PState.FALLING ∧ pCx2.velY ≤ 0 ∧
     pCx2.posY < DRIP_REMOVE_Y - 1/5 ∧ (0 : ℚ) ≤ 1) ∧
    (updateParticle oW none 1 0 pCx2).state = PState.INACTIVE ∧
    (updateParticle oW none 1 0 pCx2).size = 0 :=
  ⟨⟨rfl, by with_unfolding_all decide, by with_unfolding_all decide, by norm_num⟩,
   spawn_below_removed oW none 1 0 pCx2 rfl (by with_unfolding_all decide)
     (by with_unfolding_all decide) (by norm_num)
     (fun s hs => by cases hs)
     (fun q c h => by
       show q ≤ c + 1
       nlinarith [sq_nonneg (2 * q - 1)])⟩

/-- C9 counterexample: the original claim quantifies over every spawn
velocity, but a particle spawned at `posY = -21 < DRIP_REMOVE_Y` with
upward velocity `100` is at `posY = -11.12` after its first update
(`dt = 0.1`) and is still `FALLING` with its original size — not
deactivated. -/
theorem spawn_below_not_removed :
    pCx.posY < DRIP_REMOVE_Y ∧ pCx.state = PState.FALLING ∧ (0 : ℚ) ≤ 1/10 ∧
    (updateParticle oEx none (1/10) 0 pCx).state = PState.FALLING ∧
    (updateParticle oEx none (1/10) 0 pCx).size ≠ 0 := by
  with_unfolding_all decide

-- ## C10: the sampler is total and reads only in-bounds indices

lemma sampleSDF_outside (s : SdfData) (x y z : ℚ) (h : outsideGrid s x y z)
    (d' : ℤ → ℚ) : sampleSDF (some { s with data := d' }) x y z = 100 := by
  unfold outsideGrid voxelBase at h
  simp only [sampleSDF]
  rw [if_pos (by exact h)]

lemma baseIndex_bounds (s : SdfData) (x y z : ℚ) (h : ¬ outsideGrid s x y z) :
    0 ≤ baseIndex s x y z ∧
    baseIndex s x y z +
        ((s.resolution : ℤ) * (s.resolution : ℤ) + (s.resolution : ℤ) + 1) ≤
      (s.resolution : ℤ) ^ 3 - 1 := by
  unfold outsideGrid voxelBase at h
  push_neg at h
  obtain ⟨hx0, hx1, hy0, hy1, hz0, hz1⟩ := h
  unfold baseIndex voxelBase
  dsimp only at hx0 hx1 hy0 hy1 hz0 hz1 ⊢
  set r : ℤ := (s.resolution : ℤ) with hr
  set x0 := ⌊(x - s.bbox.min.x) / s.stepX - 1/2⌋ with hx0d
  set y0 := ⌊(y - s.bbox.min.y) / s.stepY - 1/2⌋ with hy0d
  set z0 := ⌊(z - s.bbox.min.z) / s.stepZ - 1/2⌋ with hz0d
  have hr2 : 2 ≤ r := by omega
  have hr0 : (0 : ℤ) ≤ r := by omega
  constructor
  · have h1 : 0 ≤ y0 * r := mul_nonneg (by omega) hr0
    have h2 : 0 ≤ z0 * (r * r) := mul_nonneg (by omega) (mul_nonneg hr0 hr0)
    linarith
  · have hy2 : y0 * r ≤ (r - 2) * r :=
      mul_le_mul_of_nonneg_right (by omega) hr0
    have hz2 : z0 * (r * r) ≤ (r - 2) * (r * r) :=
      mul_le_mul_of_nonneg_right (by omega) (mul_nonneg hr0 hr0)
    nlinarith

lemma sampleSDF_agree (s : SdfData) (x y z : ℚ) (d' : ℤ → ℚ)
    (hagree : ∀ i : ℤ, 0 ≤ i → i ≤ (s.resolution : ℤ) ^ 3 - 1 → s.data i = d' i) :
    sampleSDF (some s) x y z = sampleSDF (some { s with data := d' }) x y z := by
  by_cases hout : outsideGrid s x y z
  · rw [sampleSDF_outside s x y z hout d']
    have h100 := sampleSDF_outside s x y z hout s.data
    exact h100
  · have hb := baseIndex_bounds s x y z hout
    unfold baseIndex voxelBase at hb
    simp only [sampleSDF]
    unfold outsideGrid voxelBase at hout
    dsimp only at hb ⊢
    rw [if_neg (by exact hout), if_neg (by exact hout)]
    set r : ℤ := (s.resolution : ℤ) with hr
    set x0 := ⌊(x - s.bbox.min.x) / s.stepX - 1/2⌋ with hx0d
    set y0 := ⌊(y - s.bbox.min.y) / s.stepY - 1/2⌋ with hy0d
    set z0 := ⌊(z - s.bbox.min.z) / s.stepZ - 1/2⌋ with hz0d
    have hAll : ∀ j : ℤ, x0 + y0 * r + z0 * (r * r) ≤ j →
        j ≤ x0 + y0 * r + z0 * (r * r) + (r * r + r + 1) → s.data j = d' j := by
      intro j hj1 hj2
      exact hagree j (by linarith [hb.1]) (by linarith [hb.2])
    have hroff : (0 : ℤ) ≤ r := by
      rw [hr]
      exact Int.natCast_nonneg _
    rw [hAll (x0 + y0 * r + z0 * (r * r)) (by nlinarith [mul_nonneg hroff hroff]) (by nlinarith [mul_nonneg hroff hroff]),
      hAll (x0 + y0 * r + z0 * (r * r) + 1) (by nlinarith [mul_nonneg hroff hroff]) (by nlinarith [mul_nonneg hroff hroff]),
      hAll (x0 + y0 * r + z0 * (r * r) + r) (by nlinarith [mul_nonneg hroff hroff]) (by nlinarith [mul_nonneg hroff hroff]),
      hAll (x0 + y0 * r + z0 * (r * r) + r + 1) (by nlinarith [mul_nonneg hroff hroff]) (by nlinarith [mul_nonneg hroff hroff]),
      hAll (x0 + y0 * r + z0 * (r * r) + r * r) (by nlinarith [mul_nonneg hroff hroff]) (by nlinarith [mul_nonneg hroff hroff]),
      hAll (x0 + y0 * r + z0 * (r * r) + r * r + 1) (by nlinarith [mul_nonneg hroff hroff]) (by nlinarith [mul_nonneg hroff hroff]),
      hAll (x0 + y0 * r + z0 * (r * r) + r * r + r) (by nlinarith [mul_nonneg hroff hroff]) (by nlinarith [mul_nonneg hroff hroff]),
      hAll (x0 + y0 * r + z0 * (r * r) + r * r + r + 1) (by nlinarith [mul_nonneg hroff hroff]) (by nlinarith [mul_nonneg hroff hroff])]

/-- C10: the sampler is total and memory-safe: a base voxel outside
`[0, R-2]³` yields the sentinel `100` whatever the array holds (no read
influences the result), otherwise every one of the eight corner indices
`i000 .. i111 = i000 + R² + R + 1` lies in `[0, R³-1]` and the result
depends only on the array values at indices in `[0, R³-1]`; consequently a
`FALLING` particle whose sample point falls outside the padded interior
never registers an impact in either updater (100 exceeds the impact
thresholds 0.35 and 0.2), so it stays `FALLING` or is deactivated. -/
theorem sampleSDF_safe (s : SdfData) (x y z : ℚ) (o : Oracle) (dt time : ℚ)
    (p : Particle) :
    (outsideGrid s x y z →
      ∀ d' : ℤ → ℚ, sampleSDF (some { s with data := d' }) x y z = 100) ∧
    (¬ outsideGrid s x y z →
      ∀ off ∈ ([0, 1, (s.resolution : ℤ), (s.resolution : ℤ) + 1,
        (s.resolution : ℤ) * (s.resolution : ℤ),
        (s.resolution : ℤ) * (s.resolution : ℤ) + 1,
        (s.resolution : ℤ) * (s.resolution : ℤ) + (s.resolution : ℤ),
        (s.resolution : ℤ) * (s.resolution : ℤ) + (s.resolution : ℤ) + 1] : List ℤ),
        0 ≤ baseIndex s x y z + off ∧
        baseIndex s x y z + off ≤ (s.resolution : ℤ) ^ 3 - 1) ∧
    (∀ d' : ℤ → ℚ,
      (∀ i : ℤ, 0 ≤ i → i ≤ (s.resolution : ℤ) ^ 3 - 1 → s.data i = d' i) →
      sampleSDF (some s) x y z = sampleSDF (some { s with data := d' }) x y z) ∧
    (p.state = PState.FALLING →
      outsideGrid s (p.posX + p.velX * dt)
        (p.posY + (p.velY + DRIP_GRAVITY * dt) * dt) (p.posZ + p.velZ * dt) →
      ((updateParticle o (some s) dt time p).state = PState.FALLING ∨
       (updateParticle o (some s) dt time p).state = PState.INACTIVE) ∧
      ((processParticle o (some s) dt time p).state = PState.FALLING ∨
       (processParticle o (some s) dt time p).state = PState.INACTIVE)) := by
  refine ⟨sampleSDF_outside s x y z, ?_, sampleSDF_agree s x y z, ?_⟩
  · intro hout off hoff
    have hb := baseIndex_bounds s x y z hout
    have hr0 : (0 : ℤ) ≤ (s.resolution : ℤ) := Int.natCast_nonneg _
    fin_cases hoff <;> constructor <;> nlinarith [hb.1, hb.2]
  · intro hstate hout
    have h100 : sampleSDF (some s) (p.posX + p.velX * dt)
        (p.posY + (p.velY + DRIP_GRAVITY * dt) * dt) (p.posZ + p.velZ * dt) = 100 :=
      sampleSDF_outside s _ _ _ hout s.data
    constructor
    · simp only [updateParticle, hstate]
      rw [h100]
      have hno : ¬ ((100 : ℚ) < 7/20) := by norm_num
      rw [if_neg hno]
      split_ifs with hrem
      · simp
      · simp [hstate]
    · simp only [processParticle, hstate]
      rw [h100]
      have hno : ¬ ((100 : ℚ) < 1/5) := by norm_num
      rw [if_neg hno]
      split_ifs with hrem
      · simp
      · simp [hstate]

theorem sampleSDF_safe_witness :
    outsideGrid sW (-10) (-10) (-10) ∧
    sampleSDF (some { sW with data := fun _ => (5 : ℚ) }) (-10) (-10) (-10) = 100 ∧
    pOut.state = PState.FALLING ∧
    outsideGrid sW (pOut.posX + pOut.velX * 1)
      (pOut.posY + (pOut.velY + DRIP_GRAVITY * 1) * 1) (pOut.posZ + pOut.velZ * 1) ∧
    ((updateParticle oW (some sW) 1 0 pOut).state = PState.FALLING ∨
     (updateParticle oW (some sW) 1 0 pOut).state = PState.INACTIVE) := by
  have h1 : outsideGrid sW (-10) (-10) (-10) := by
    with_unfolding_all decide
  have h4 : outsideGrid sW (pOut.posX + pOut.velX * 1)
      (pOut.posY + (pOut.velY + DRIP_GRAVITY * 1) * 1) (pOut.posZ + pOut.velZ * 1) := by
    with_unfolding_all decide
  exact ⟨h1, (sampleSDF_safe sW (-10) (-10) (-10) oW 1 0 pOut).1 h1 _, rfl, h4,
    ((sampleSDF_safe sW (-10) (-10) (-10) oW 1 0 pOut).2.2.2 rfl h4).1⟩

-- ## C8: SDF validation (generation path vs cache path)

lemma foldMinQ_some_spec (vs : List ℚ) (a : ℚ) :
    ∃ mn, vs.foldl (fun m v => match m with | none => some v | some m => some (min m v))
        (some a) = some mn ∧
      (mn = a ∨ mn ∈ vs) ∧ mn ≤ a ∧ ∀ v ∈ vs, mn ≤ v := by
  induction vs generalizing a with
  | nil => exact ⟨a, rfl, Or.inl rfl, le_refl a, by simp⟩
  | cons v vs ih =>
    obtain ⟨mn, hfold, hmem, hle, hall⟩ := ih (min a v)
    refine ⟨mn, hfold, ?_, le_trans hle (min_le_left a v), ?_⟩
    · rcases hmem with h | h
      · rcases min_choice a v with hc | hc
        · exact Or.inl (h.trans hc)
        · exact Or.inr (by rw [h, hc]; exact List.mem_cons_self _ _)
      · exact Or.inr (List.mem_cons_of_mem _ h)
    · intro w hw
      rcases List.mem_cons.1 hw with rfl | hw'
      · exact le_trans hle (min_le_right a w)
      · exact hall w hw'

lemma foldMaxQ_some_spec (vs : List ℚ) (a : ℚ) :
    ∃ mx, vs.foldl (fun m v => match m with | none => some v | some m => some (max m v))
        (some a) = some mx ∧
      (mx = a ∨ mx ∈ vs) ∧ a ≤ mx ∧ ∀ v ∈ vs, v ≤ mx := by
  induction vs generalizing a with
  | nil => exact ⟨a, rfl, Or.inl rfl, le_refl a, by simp⟩
  | cons v vs ih =>
    obtain ⟨mx, hfold, hmem, hle, hall⟩ := ih (max a v)
    refine ⟨mx, hfold, ?_, le_trans (le_max_left a v) hle, ?_⟩
    · rcases hmem with h | h
      · rcases max_choice a v with hc | hc
        · exact Or.inl (h.trans hc)
        · exact Or.inr (by rw [h, hc]; exact List.mem_cons_self _ _)
      · exact Or.inr (List.mem_cons_of_mem _ h)
    · intro w hw
      rcases List.mem_cons.1 hw with rfl | hw'
      · exact le_trans (le_max_right a w) hle
      · exact hall w hw'

lemma foldMinQ_cons (v : ℚ) (vs : List ℚ) :
    ∃ mn, foldMinQ (v :: vs) = some mn ∧ mn ∈ v :: vs ∧ ∀ w ∈ v :: vs, mn ≤ w := by
  obtain ⟨mn, hfold, hmem, hle, hall⟩ := foldMinQ_some_spec vs v
  refine ⟨mn, ?_, ?_, ?_⟩
  · unfold foldMinQ
    rw [List.foldl_cons]
    exact hfold
  · rcases hmem with h | h
    · exact h ▸ List.mem_cons_self _ _
    · exact List.mem_cons_of_mem _ h
  · intro w hw
    rcases List.mem_cons.1 hw with rfl | hw'
    · exact hle
    · exact hall w hw'

lemma foldMaxQ_cons (v : ℚ) (vs : List ℚ) :
    ∃ mx, foldMaxQ (v :: vs) = some mx ∧ mx ∈ v :: vs ∧ ∀ w ∈ v :: vs, w ≤ mx := by
  obtain ⟨mx, hfold, hmem, hle, hall⟩ := foldMaxQ_some_spec vs v
  refine ⟨mx, ?_, ?_, ?_⟩
  · unfold foldMaxQ
    rw [List.foldl_cons]
    exact hfold
  · rcases hmem with h | h
    · exact h ▸ List.mem_cons_self _ _
    · exact List.mem_cons_of_mem _ h
  · intro w hw
    rcases List.mem_cons.1 hw with rfl | hw'
    · exact hle
    · exact hall w hw'

lemma validate_match_iff (vs : List ℚ) :
    (match foldMinQ vs, foldMaxQ vs with
     | some mn, some mx =>
       if mx - mn < 1/100 then false else if 1 < mn then false else true
     | _, _ => false) = true ↔
    (∃ v ∈ vs, ∃ w ∈ vs, 1/100 ≤ w - v) ∧ (∃ v ∈ vs, v ≤ 1) := by
  cases vs with
  | nil => simp [foldMinQ, foldMaxQ]
  | cons v vs =>
    obtain ⟨mn, hmn, hmnmem, hmnall⟩ := foldMinQ_cons v vs
    obtain ⟨mx, hmx, hmxmem, hmxall⟩ := foldMaxQ_cons v vs
    rw [hmn, hmx]
    dsimp only
    constructor
    · intro h
      split_ifs at h with h1 h2
      push_neg at h1 h2
      exact ⟨⟨mn, hmnmem, mx, hmxmem, by linarith⟩, mn, hmnmem, by linarith⟩
    · rintro ⟨⟨a, ha, b, hb, hab⟩, c, hc, hc1⟩
      have h1 : ¬ (mx - mn < 1/100) := by
        push_neg
        have h2 := hmnall a ha
        have h3 := hmxall b hb
        linarith
      have h2 : ¬ (1 < mn) := by
        push_neg
        exact le_trans (hmnall c hc) hc1
      rw [if_neg h1, if_neg h2]

lemma cache_match_iff (vs : List ℚ) :
    (match foldMinQ vs, foldMaxQ vs with
     | some mn, some mx => decide (1/100 < mx - mn ∧ mn < 1)
     | _, _ => false) = true ↔
    (∃ v ∈ vs, ∃ w ∈ vs, 1/100 < w - v) ∧ (∃ v ∈ vs, v < 1) := by
  cases vs with
  | nil => simp [foldMinQ, foldMaxQ]
  | cons v vs =>
    obtain ⟨mn, hmn, hmnmem, hmnall⟩ := foldMinQ_cons v vs
    obtain ⟨mx, hmx, hmxmem, hmxall⟩ := foldMaxQ_cons v vs
    rw [hmn, hmx]
    dsimp only
    rw [decide_eq_true_iff]
    constructor
    · rintro ⟨h1, h2⟩
      exact ⟨⟨mn, hmnmem, mx, hmxmem, by linarith⟩, mn, hmnmem, by linarith⟩
    · rintro ⟨⟨a, ha, b, hb, hab⟩, c, hc, hc1⟩
      have h2 := hmnall a ha
      have h3 := hmxall b hb
      exact ⟨by linarith, lt_of_le_of_lt (hmnall c hc) hc1⟩

/-- C8 (amended): a missing array is rejected by both validators.  The
generation-path validator accepts exactly when its stride-spaced samples
contain a pair at least `0.01` apart (some variation) and a value `≤ 1.0`
(a voxel near a surface).  The cache validator accepts exactly when *its*
(differently strided) samples contain a pair *strictly more than* `0.01`
apart and a value *strictly below* `1.0` — strict where `validateSDF` is
non-strict, so the cache is not subjected to the same validation (see the
divergence counterexample). -/
theorem validation_spec (data : List ℚ) :
    validateSDF none = false ∧
    cacheValidate none = false ∧
    (validateSDF (some data) = true ↔
      (∃ v ∈ sampledVals data (data.length / min 1000 data.length),
       ∃ w ∈ sampledVals data (data.length / min 1000 data.length), 1/100 ≤ w - v) ∧
      (∃ v ∈ sampledVals data (data.length / min 1000 data.length), v ≤ 1)) ∧
    (cacheValidate (some data) = true ↔
      (∃ v ∈ sampledVals data (max 1 (data.length / 100)),
       ∃ w ∈ sampledVals data (max 1 (data.length / 100)), 1/100 < w - v) ∧
      (∃ v ∈ sampledVals data (max 1 (data.length / 100)), v < 1)) := by
  refine ⟨rfl, rfl, validate_match_iff _, ?_⟩
  by_cases h0 : data.length = 0
  · rw [List.length_eq_zero] at h0
    subst h0
    constructor
    · intro h
      exact absurd h (by with_unfolding_all decide)
    · rintro ⟨⟨a, ha, _⟩, _⟩
      simp [sampledVals, strideIndices] at ha
  · show (if data.length = 0 then false else _) = true ↔ _
    rw [if_neg h0]
    exact cache_match_iff _

/-- C8 counterexample: on the two-voxel field `[0, 0.01]` the
generation-path validator accepts (range `0.01` is not `< 0.01`, min `0 ≤ 1`)
while the cache validator rejects (it demands range strictly `> 0.01`): a
cached field is not subjected to the same validation. -/
theorem validation_divergence :
    validateSDF (some [0, 1/100]) = true ∧
    cacheValidate (some [0, 1/100]) = false := by
  with_unfolding_all decide

end Waves
